import Mathlib

/-!
Shallow embedding of the batch-construction logic of
nemo/collections/multimodal/speech_llm/data/lhotse_dataset.py
(classes and functions `collate_vectors`, `LhotseAudioQuestionAnswerDataset.__getitem__`
and its inner helpers `discretize_time`, `extract_text_and_time_tokens`,
`_expand_text_with_timestamps_and_word_lengths`, `get_3d_empty_tensor`,
`collate_and_pad`, `_convert_text_to_3d_tensor`).

Modelling conventions:
- Tensors are nested lists: a 2-D tensor is a list of rows, a 3-D tensor a list of
  2-D tensors (index order batch, time, channel), matching the row-major layout the
  code manipulates; tensors built by the code are rectangular by construction.
- Token ids are Int.  Floating-point values (audio samples, resolutions,
  the codec downsampling factor) are modelled as exact rationals; arithmetic on
  them is expressed through numerator/denominator integer formulas so that
  every definition is kernel-computable.
- Fallible steps (Python exceptions: `raise`, `assert`, torch shape errors,
  `max()` of an empty sequence) are modelled with `Except String`.
- The text processor is an injected collaborator (`TextProcessing` from
  data_utils.py, which is outside the sources under verification); it is
  modelled from the spec as a record holding the four sentinel ids and the
  `_process_example` function.
-/

/-- Maximum of a list of naturals, 0 for the empty list. -/
def listMaxNat (l : List Nat) : Nat := l.foldr max 0

/-- Python `max(sequence)`: raises ValueError on an empty sequence. -/
def pyMaxNat (l : List Nat) : Except String Nat :=
  if l.isEmpty then Except.error "ValueError: max() arg is an empty sequence"
  else Except.ok (listMaxNat l)

/-- Tensor dtype, as far as the embedding needs to track it: the code only
distinguishes floating tensors from the integer (`torch.long`) tensors produced
by `.long()`. -/
inductive DType
  | float32
  | int64
deriving DecidableEq, Repr

/-- Python `int()` / `.long()` truncation toward zero of an exact rational. -/
def qtrunc (q : ℚ) : Int := Int.tdiv q.num (q.den : Int)

/-- A 2-D tensor of (possibly floating) scalars together with its dtype. -/
structure QTensor2 where
  rows : List (List ℚ)
  dtype : DType
deriving DecidableEq, Repr

/-- Model of `Tensor.long()`: truncate every element toward zero and switch the
dtype to int64. -/
def tensorLong (t : QTensor2) : QTensor2 :=
  { rows := t.rows.map (fun r => r.map (fun q => ((qtrunc q : Int) : ℚ))), dtype := DType.int64 }

/-- Model of lhotse's `collate_vectors` (dataset/collation.py): stack 1-D tensors
into a 2-D tensor, right-padding each to the longest item's length with
`padding_value` (torch.nn.utils.rnn.pad_sequence with batch_first=True). -/
def collate_vectors_lhotse (items : List (List ℚ)) (padding_value : ℚ) : List (List ℚ) :=
  let max_len := listMaxNat (items.map List.length)
  items.map (fun v => v ++ List.replicate (max_len - v.length) padding_value)

/-- Embedding of `collate_vectors` (lhotse_dataset.py lines 18-27): lhotse
collation, then extra right-padding up to `max_length` when the stacked width
is smaller, then a cast to int64 when the first item has no elements.
The source indexes `items[0]`, so the function is only meaningful for nonempty
`items` (the source raises on an empty list); the embedding uses `headI`. -/
def collate_vectors (items : List (List ℚ)) (max_length : Nat) (padding_value : ℚ)
    (dtype : DType) : QTensor2 :=
  let vectors := collate_vectors_lhotse items padding_value
  let width := listMaxNat (items.map List.length)
  let vectors :=
    if width < max_length then
      vectors.map (fun r => r ++ List.replicate (max_length - width) padding_value)
    else vectors
  let t : QTensor2 := { rows := vectors, dtype := dtype }
  if (items.headI).length < 1 then tensorLong t else t

/-- The rational 5/2, a non-integral element used to exercise the dtype cast. -/
def q5half : ℚ := ⟨5, 2, by decide, by decide⟩


/-- Kernel-computable exact division of rationals (core Rat.div does not reduce
in the kernel); equal to a / b for b not equal to 0 and 0 otherwise (the source
never divides by zero on the paths modelled here). -/
def ratDivExact (a b : ℚ) : ℚ :=
  let p : Int := a.num * (b.den : Int)
  let q : Int := (a.den : Int) * b.num
  if q < 0 then mkRat (-p) (-q).toNat else mkRat p q.toNat

/-- Ceiling of the exact integer fraction p / r (Python math.ceil); 0 when r = 0. -/
def intCeilFrac (p r : Int) : Int :=
  if r = 0 then 0
  else
    let pn : Int := if r < 0 then -p else p
    let rn : Int := if r < 0 then -r else r
    Int.neg ((Int.neg pn).ediv rn)

/-- Embedding of `math.ceil(a / q)` for a natural a and rational q (used on
line 344 to derive codec feature lengths from answer-audio lengths); the result
is a length, hence taken as a natural. -/
def ceilDivRatNat (a : Nat) (q : ℚ) : Nat :=
  (intCeilFrac ((a : Int) * (q.den : Int)) q.num).toNat

/-- The float literal 0.08, the default resolution of `discretize_time`. -/
def r008 : ℚ := mkRat 2 25

/-- Embedding of the inner helper `discretize_time` (lines 110-112):
`int(start_token * timestamp_resolution / speech_resolution)` computed over
exact rationals; `Int.tdiv` is Python int() truncation toward zero. -/
def discretize_time (start_token : Nat) (speech_resolution : ℚ)
    (timestamp_resolution : ℚ) : Int :=
  Int.tdiv ((start_token : Int) * timestamp_resolution.num * (speech_resolution.den : Int))
    ((timestamp_resolution.den : Int) * speech_resolution.num)

/-- Whitespace class of Python str.split() and of the regex class matched by
backslash-s (ASCII range). -/
def isPySpace (c : Char) : Bool :=
  c = ' ' || c = '\t' || c = '\n' || c = '\r' || c = '\x0b' || c = '\x0c'

/-- Decimal digit run to a natural number. -/
def digitsToNat (ds : List Char) : Nat :=
  ds.foldl (fun acc c => acc * 10 + (c.toNat - 48)) 0

/-- Try to match one time token of the regex pattern used on lines 116 and 227
(the literal sequence: angle bracket, bar, one or more digits, bar, angle
bracket) at the head of the character list; on success return the digit value
and the remaining characters. -/
def matchTimeToken : List Char → Option (Nat × List Char)
  | '<' :: '|' :: rest =>
    let digits := rest.takeWhile Char.isDigit
    let rest2 := rest.dropWhile Char.isDigit
    if digits.isEmpty then none
    else
      match rest2 with
      | '|' :: '>' :: tail => some (digitsToNat digits, tail)
      | _ => none
  | _ => none

/-- Left-to-right non-overlapping scan for time tokens: returns the list of
matched digit values (re.findall on line 118) and the input with every match
removed (re.sub on lines 122 and 228).  Fuel-structured so the definition is
kernel-computable; the fuel is always the input length. -/
def scanTimeTokensAux : Nat → List Char → List Nat × List Char
  | 0, cs => ([], cs)
  | _ + 1, [] => ([], [])
  | fuel + 1, c :: cs =>
    match matchTimeToken (c :: cs) with
    | some (n, tail) =>
      let r := scanTimeTokensAux fuel tail
      (n :: r.1, r.2)
    | none =>
      let r := scanTimeTokensAux fuel cs
      (r.1, c :: r.2)

def scanTimeTokens (cs : List Char) : List Nat × List Char :=
  scanTimeTokensAux cs.length cs

/-- Python str.split() with no arguments: split on runs of whitespace,
discarding empty fields. -/
def pySplitAux : List Char → List Char → List String
  | [], acc => if acc.isEmpty then [] else [String.mk acc.reverse]
  | c :: cs, acc =>
    if isPySpace c then
      if acc.isEmpty then pySplitAux cs [] else String.mk acc.reverse :: pySplitAux cs []
    else pySplitAux cs (c :: acc)

def pySplit (s : String) : List String := pySplitAux s.toList []

/-- Embedding of lines 227-229: strip every time token from the agent text,
then collapse whitespace runs to single spaces and strip the ends.  The
whitespace normalization `re.sub` of runs to one space followed by strip()
equals joining str.split() with single spaces. -/
def cleanOutputText (s : String) : String :=
  String.intercalate " " (pySplit (String.mk (scanTimeTokens s.toList).2))

/-- Elements at even indices 0, 2, 4, ... (line 120: keep the first token of
every pair of time tokens). -/
def everyOther {α : Type} : List α → List α
  | [] => []
  | [a] => [a]
  | a :: _ :: rest => a :: everyOther rest

/-- Output record of the text processor collaborator.
Modelled from the spec: `TextProcessing._process_example` (data_utils.py, not
under the verified sources) returns a dict with keys input_ids, context_ids and
answer_ids, each a token id sequence ending in an explicit end-marker id. -/
structure ProcessedExample where
  input_ids : List Int
  context_ids : List Int
  answer_ids : List Int

/-- The injected text-processing collaborator.
Modelled from the spec: it exposes fixed sentinel ids pad, unk, bos, eos and
the `_process_example(context, output)` tokenization function. -/
structure TextProcessing where
  pad_id : Int
  unk_id : Int
  bos_id : Int
  eos_id : Int
  process_example : String → String → ProcessedExample

/-- One supervision segment of a lhotse cut: a speaker tag and its text. -/
structure Supervision where
  speaker : String
  text : String
deriving DecidableEq, Repr

/-- One lhotse cut as far as `__getitem__` reads it: the two conversation
turns, the per-example mode flags (getattr with default False), the loaded
source audio (`cut.resample(sample_rate).load_audio()` is external I/O,
modelled as a stored sample list), the loaded answer audio
(`cut.target_audio.load_audio()`), and the loaded codec frame matrix
(`cut.target_codes.load()`).  The context-resolution loop of lines 265-271
mutates `cut.context`, which `__getitem__` never reads afterwards, so the
context keys are not modelled. -/
structure Cut where
  id : String
  duration : ℚ
  supervisions : List Supervision
  s2s : Bool
  s2s_align : Bool
  direct_s2s : Bool
  s2t : Bool
  audio : List ℚ
  target_audio : List ℚ
  target_codes : List (List Int)
deriving DecidableEq, Repr

def defaultSupervision : Supervision := { speaker := "", text := "" }

def defaultCut : Cut :=
  { id := "", duration := 0, supervisions := [], s2s := false, s2s_align := false,
    direct_s2s := false, s2t := false, audio := [], target_audio := [], target_codes := [] }

/-- Dataset configuration captured at construction time (`__init__`). -/
structure Config where
  tokens_to_generate : Nat
  pad_to_max_length : Bool
  max_seq_length : Nat
  vocab_sizes : List Int
  decoder_reduction_factor : Nat
  speech_pad_id : Int
  speech_unk_id : Int
  speech_bos_id : Int
  speech_eos_id : Int
  sample_rate : Nat
  t5_style : Bool
  load_answer_audio : Bool
  codec_model_downsampling_factor : ℚ
deriving DecidableEq, Repr

/-- `self.n_speech_codebooks = len(self.vocab_sizes) - 1` (line 88). -/
def nSpeechCodebooks (cfg : Config) : Nat := cfg.vocab_sizes.length - 1

/-- Number of speech channels of the 3-D token tensors:
`n_speech_codebooks * decoder_reduction_factor`. -/
def speechChannels (cfg : Config) : Nat :=
  nSpeechCodebooks cfg * cfg.decoder_reduction_factor

/-- Insertion into a duration-sorted cut list (descending, stable: an element
inserted from earlier in the original list goes before later elements of equal
duration). -/
def insertByDuration (c : Cut) : List Cut → List Cut
  | [] => [c]
  | d :: ds => if d.duration ≤ c.duration then c :: d :: ds else d :: insertByDuration c ds

/-- Model of `cuts.sort_by_duration()` (line 205, lhotse CutSet method, whose
default is ascending=False): a stable descending sort of the cuts by
duration. -/
def sort_by_duration : List Cut → List Cut
  | [] => []
  | c :: cs => insertByDuration c (sort_by_duration cs)

/-- A 3-D token tensor (batch, time, 1 + speech channels). -/
abbrev Mat3 := List (List (List Int))

/-- A 3-D boolean mask tensor. -/
abbrev Mask3 := List (List (List Bool))

/-- Embedding of `extract_text_and_time_tokens` (lines 114-140): pull out the
start-time token of every pair of time tokens, strip the time tokens, split the
rest into words, tokenize each word (dropping the trailing eos id and, for
every word after the first, also the leading token), and return the
concatenated word tokens, the start-time tokens and the per-word token
lengths. -/
def extract_text_and_time_tokens (tp : TextProcessing) (input_sequence : String) :
    List Int × List Nat × List Nat :=
  let scanned := scanTimeTokens input_sequence.toList
  let start_time_token := everyOther scanned.1
  let words := pySplit (String.mk scanned.2)
  let step := fun (acc : List Int × List Nat × Nat) (word : String) =>
    let tokenized_word := tp.process_example "" word
    let token_ids := tokenized_word.answer_ids.dropLast
    let token_ids := if acc.2.2 = 0 then token_ids else token_ids.drop 1
    (acc.1 ++ token_ids, acc.2.1 ++ [token_ids.length], acc.2.2 + 1)
  let r := words.foldl step ([], [], 0)
  (r.1, start_time_token, r.2.1)

/-- Per-example data produced by the first loop of `__getitem__`
(lines 212-247). -/
structure PerCut where
  instruction : List Int
  instruction_length : Int
  target_text : List Int
  target_text_length : Int
  use_timestamp : Bool
  word_length : List Nat
  start_time_token : List Nat
deriving Repr

def defaultPerCut : PerCut :=
  { instruction := [], instruction_length := 0, target_text := [], target_text_length := 0,
    use_timestamp := false, word_length := [], start_time_token := [] }

/-- Embedding of one iteration of the loop at lines 212-247: speaker checks
(raising on a wrong ordering), instruction tokenization (input_ids without the
trailing eos), and target-text extraction, which in timestamp (s2s_align) mode
goes through `extract_text_and_time_tokens` and otherwise through the regex
cleanup plus tokenization (answer_ids without the trailing eos).  Missing
supervisions read as the default supervision, whose empty speaker also
aborts (the source raises IndexError there). -/
def processCut (tp : TextProcessing) (cut : Cut) : Except String PerCut :=
  let sup0 := cut.supervisions.getD 0 defaultSupervision
  if sup0.speaker = "user" then
    let pe := tp.process_example sup0.text ""
    let instruction := pe.input_ids.dropLast
    let instruction_length : Int := (pe.input_ids.length : Int) - 1
    let sup1 := cut.supervisions.getD 1 defaultSupervision
    if sup1.speaker = "agent" then
      let use_timestamp := cut.s2s_align
      if ¬ use_timestamp then
        let output_text := cleanOutputText sup1.text
        let ta := tp.process_example "" output_text
        Except.ok { instruction := instruction, instruction_length := instruction_length,
                    target_text := ta.answer_ids.dropLast,
                    target_text_length := (ta.answer_ids.length : Int) - 1,
                    use_timestamp := false, word_length := [], start_time_token := [] }
      else
        let r := extract_text_and_time_tokens tp sup1.text
        Except.ok { instruction := instruction, instruction_length := instruction_length,
                    target_text := r.1, target_text_length := (r.1.length : Int),
                    use_timestamp := true, word_length := r.2.2, start_time_token := r.2.1 }
    else Except.error "Second speaker should be agent"
  else Except.error "First speaker should be user"

/-- The whole per-cut loop: the first raise aborts the batch. -/
def processCuts (tp : TextProcessing) : List Cut → Except String (List PerCut)
  | [] => Except.ok []
  | c :: cs => do
    let p ← processCut tp c
    let ps ← processCuts tp cs
    Except.ok (p :: ps)

/-- Modelled from the spec: `ceil_to_nearest` lives in data_utils.py, outside
the sources under verification; per the call-site comments it increases a
length to the nearest multiple of its second argument. -/
def ceil_to_nearest (n m : Nat) : Nat := ((n + m - 1) / m) * m

/-- The `collate_vectors` padding pipeline specialized to tensors whose
elements are integer token ids or batch audio (where the dtype bookkeeping of
`QTensor2` is irrelevant to the claims): lhotse stacking to the longest item
plus right-padding to `max_length`; the `.long()` cast of lines 25-26 is the
identity on integer-valued tensors. -/
def collate_rows {α : Type} (items : List (List α)) (max_length : Nat) (pad : α) :
    List (List α) :=
  let max_len := listMaxNat (items.map List.length)
  let vectors := items.map (fun v => v ++ List.replicate (max_len - v.length) pad)
  if max_len < max_length then
    vectors.map (fun r => r ++ List.replicate (max_length - max_len) pad)
  else vectors

/-- Embedding of `get_3d_empty_tensor` (lines 278-287): a [batch, length,
1 + speech channels] tensor whose text column holds `text_fill_id` and whose
speech columns hold `speech_fill_id`. -/
def get_3d_empty_tensor (cfg : Config) (batch_size length : Nat)
    (text_fill_id speech_fill_id : Int) : Mat3 :=
  List.replicate batch_size
    (List.replicate length (text_fill_id :: List.replicate (speechChannels cfg) speech_fill_id))

/-- Embedding of `collate_and_pad` (lines 289-304) on 1-D inputs: the batch max
length becomes `max_seq_length` when `pad_to_max_length` is set, otherwise the
multiple-of-8 round-up capped at `max_seq_length`; ids are collated padding
with the text pad id. -/
def collate_and_pad_1d (cfg : Config) (text_pad_id : Int) (inputs : List (List Int)) :
    List (List Int) × List Nat :=
  let token_lengths := inputs.map List.length
  let max_length := listMaxNat token_lengths
  let max_length :=
    if cfg.pad_to_max_length then cfg.max_seq_length
    else min cfg.max_seq_length (ceil_to_nearest max_length 8)
  (collate_rows inputs max_length text_pad_id, token_lengths)

/-- Embedding of `collate_and_pad` (lines 289-304) on 2-D (time, channel)
inputs: write every example over a fresh empty tensor of the batch max length,
which amounts to appending pad rows (text pad, speech pad) up to that
length. -/
def collate_and_pad_3d (cfg : Config) (text_pad_id : Int) (inputs : Mat3) :
    Mat3 × List Nat :=
  let token_lengths := inputs.map List.length
  let max_length := listMaxNat token_lengths
  let padRow := text_pad_id :: List.replicate (speechChannels cfg) cfg.speech_pad_id
  (inputs.map (fun m => m ++ List.replicate (max_length - m.length) padRow), token_lengths)

/-- Embedding of `_convert_text_to_3d_tensor` (lines 365-381).  The imperative
writes fill, for example i of length L, rows 0..L-1 with (token, unk speech
columns), row L with the modality end marker (text eos, speech bos), and leave
the remaining rows of the width `collated width + 1 + tokens_to_generate`
tensor at their empty-tensor fill (text pad, speech pad); `include_eos = false`
drops the last time row. -/
def convert_text_to_3d_tensor (cfg : Config) (tp : TextProcessing)
    (texts : List (List Int)) (include_eos : Bool) (tokens_to_generate : Nat) :
    List (List Int) × List Nat × Mat3 :=
  let collated := collate_and_pad_1d cfg tp.pad_id texts
  let width := (collated.1.headI).length + 1 + tokens_to_generate
  let texts_expanded := texts.map (fun s =>
    s.map (fun x => x :: List.replicate (speechChannels cfg) cfg.speech_unk_id)
      ++ [tp.eos_id :: List.replicate (speechChannels cfg) cfg.speech_bos_id]
      ++ List.replicate (width - s.length - 1)
          (tp.pad_id :: List.replicate (speechChannels cfg) cfg.speech_pad_id))
  let texts_expanded := if include_eos then texts_expanded else texts_expanded.map List.dropLast
  (collated.1, collated.2, texts_expanded)

/-- Results of the two `_convert_text_to_3d_tensor` calls (lines 383-390). -/
structure ConvOut where
  target_texts : List (List Int)
  target_text_lengths : List Nat
  target_texts_expanded : Mat3
  instructions : List (List Int)
  instruction_lengths : List Nat
  instructions_expanded_no_eos : Mat3

def convertStage (cfg : Config) (tp : TextProcessing) (pcs : List PerCut) : ConvOut :=
  let r1 := convert_text_to_3d_tensor cfg tp (pcs.map (fun p => p.target_text)) true 0
  let r2 := convert_text_to_3d_tensor cfg tp (pcs.map (fun p => p.instruction)) false
    cfg.tokens_to_generate
  { target_texts := r1.1, target_text_lengths := r1.2.1, target_texts_expanded := r1.2.2,
    instructions := r2.1, instruction_lengths := r2.2.1, instructions_expanded_no_eos := r2.2.2 }

/-- Results of the target-codec stanza (lines 306-363). -/
structure CodecOut where
  features_lens : List Nat
  target_codec : Mat3
  answer_audios : Option (List (List ℚ))
  answer_audio_lens : Option (List Nat)

/-- Groups of n consecutive elements (row-major regrouping); fuel-structured. -/
def chunkExact {α : Type} : Nat → Nat → List α → List (List α)
  | 0, _, _ => []
  | fuel + 1, n, l => if l.isEmpty then [] else l.take n :: chunkExact fuel n (l.drop n)

/-- Model of the torch reshape((-1, n_speech_codebooks * decoder_reduction_factor)) of a
row-major frames-by-codebooks matrix (line 327): flatten and regroup. -/
def reshapeCodes (cfg : Config) (rows : List (List Int)) : List (List Int) :=
  let flat := rows.flatten
  chunkExact flat.length (speechChannels cfg) flat

/-- Embedding of lines 309-331, the target-codec construction from
`cut.target_codes`.  This branch is unreachable: line 308 asserts
`self.load_answer_audio` and the branch is guarded by its negation.  Kept to
model the full stanza: per cut, rows below the (truncated, reshaped) code
matrix carry text unk and the codes, the next row is the speech end marker
(text unk), and the rest keep text unk up to the original frame count and the
empty-tensor fill beyond. -/
def codecFromTargetCodes (cfg : Config) (tp : TextProcessing) (cutsS : List Cut) :
    Except String CodecOut := do
  if (cutsS.getLastD defaultCut).s2t then
    Except.error "AssertionError: s2t not supported when load_answer_audio is False"
  else do
    let features_lens := cutsS.map
      (fun c => c.target_codes.length / cfg.decoder_reduction_factor)
    let maxF ← pyMaxNat features_lens
    let target_codec := (cutsS.zip features_lens).map (fun p =>
      let origLen := p.1.target_codes.length
      let feat := reshapeCodes cfg
        ((p.1.target_codes.take (p.2 * cfg.decoder_reduction_factor)).map
          (fun row => row.take (nSpeechCodebooks cfg)))
      (List.range (maxF + 1)).map (fun t =>
        if t < feat.length then tp.unk_id :: feat.getD t []
        else if t = feat.length then
          tp.unk_id :: List.replicate (speechChannels cfg) cfg.speech_eos_id
        else
          (if t < origLen then tp.unk_id else tp.pad_id)
            :: List.replicate (speechChannels cfg) cfg.speech_pad_id))
    Except.ok { features_lens := features_lens, target_codec := target_codec,
                answer_audios := none, answer_audio_lens := none }

/-- Embedding of lines 349-363: the dummy target codec of the
load-answer-audio branch.  Per cut of feature length F, rows below F carry
text unk and speech `speech_pad_id - 1`, row F is the speech end marker (text
unk), and the remaining rows keep the empty-tensor fill (text pad, speech
pad). -/
def buildDummyCodec (cfg : Config) (tp : TextProcessing) (features_lens : List Nat)
    (maxF : Nat) : Mat3 :=
  features_lens.map (fun F =>
    List.replicate F (tp.unk_id :: List.replicate (speechChannels cfg) (cfg.speech_pad_id - 1))
      ++ [tp.unk_id :: List.replicate (speechChannels cfg) cfg.speech_eos_id]
      ++ List.replicate (maxF - F)
          (tp.pad_id :: List.replicate (speechChannels cfg) cfg.speech_pad_id))

/-- Embedding of the target-codec stanza (lines 306-363).  Line 308
unconditionally asserts `self.load_answer_audio`; the following `if not
self.load_answer_audio` branch is therefore unreachable.  The live branch
asserts that the (loop-leaked, last) cut does not carry direct_s2s and that
the decoder reduction factor is 1, then loads and collates the answer audio
and derives the codec feature lengths by the downsampling-factor ceiling
division. -/
def targetCodecStage (cfg : Config) (tp : TextProcessing) (cutsS : List Cut) :
    Except String CodecOut :=
  if ¬ cfg.load_answer_audio then
    Except.error "AssertionError: assert self.load_answer_audio"
  else if ¬ cfg.load_answer_audio then
    codecFromTargetCodes cfg tp cutsS
  else
    if (cutsS.getLastD defaultCut).direct_s2s then
      Except.error "AssertionError: direct_s2s not supported when load_answer_audio is True"
    else if cfg.decoder_reduction_factor ≠ 1 then
      Except.error "AssertionError: TODO: add the support in on the fly"
    else do
      let answer_audio_lens := cutsS.map (fun c => c.target_audio.length)
      let features_lens := cutsS.map (fun c =>
        ceilDivRatNat c.target_audio.length cfg.codec_model_downsampling_factor)
      let maxAA ← pyMaxNat answer_audio_lens
      let answer_audios := collate_rows (cutsS.map (fun c => c.target_audio)) maxAA (0 : ℚ)
      let maxF ← pyMaxNat features_lens
      Except.ok { features_lens := features_lens,
                  target_codec := buildDummyCodec cfg tp features_lens maxF,
                  answer_audios := some answer_audios,
                  answer_audio_lens := some answer_audio_lens }

/-- Write one word's token window (lines 192-195): for every frame of
[start, start + count) set the row entry to the corresponding word token when
in bounds. -/
def writeWindow (row : List Int) (start count : Nat) (toks : List Int) : List Int :=
  (List.range' start count).foldl
    (fun r t => if t - start < toks.length then r.set t (toks.getD (t - start) 0) else r) row

/-- Embedding of `_expand_text_with_timestamps_and_word_lengths`
(lines 142-203).  `pad_id` is the fill of the fresh tensor (the call site
passes the text unk id); `text_pad_id`, captured from the enclosing scope on
line 201, overwrites the frames from one before the per-example feature length
(the end-marker frame) on.  Per word, the start frame is
`discretize_time(start_token, frame_rate)` integer-divided by the decoder
reduction factor, and the word's tokens fill the frames up to
`start + word_length` clipped to the tensor length. -/
def expand_text_with_timestamps_and_word_lengths
    (decoder_reduction_factor : Nat) (text_pad_id : Int)
    (word_tokens : List (List Int)) (word_lengths : List (List Nat))
    (start_time_tokens : List (List Nat)) (features_lens : List Nat)
    (frame_rate : ℚ) (pad_id : Int) : List (List Int) :=
  let max_length := listMaxNat features_lens
  (List.range word_tokens.length).map (fun batch_idx =>
    let batch_max_length := features_lens.getD batch_idx 0 - 1
    let wls := word_lengths.getD batch_idx []
    let sts := start_time_tokens.getD batch_idx []
    let wts := word_tokens.getD batch_idx []
    let row0 : List Int := List.replicate max_length pad_id
    let step := fun (acc : List Int × Nat × Nat) (word_length : Nat) =>
      let word_idx := acc.2.2
      let start_token := sts.getD word_idx 0
      let start_time_index := discretize_time start_token frame_rate r008
      let start_time_index :=
        (Int.tdiv start_time_index (decoder_reduction_factor : Int)).toNat
      let end_time_index := min (start_time_index + word_length) max_length
      let word_token_ids := (wts.drop acc.2.1).take word_length
      (writeWindow acc.1 start_time_index (end_time_index - start_time_index) word_token_ids,
        acc.2.1 + word_length, word_idx + 1)
    let r := wls.foldl step (row0, 0, 0)
    r.1.take batch_max_length ++ List.replicate (r.1.length - batch_max_length) text_pad_id)

/-- One step of the instruction-masking loop (lines 413-415, 451-452,
472-474, 490-492: for itl in instruction_lengths, mask[:, :itl, :] = False):
zero the first itl time rows of every example. -/
def zeroFirstRows (itl : Nat) (m : Mask3) : Mask3 :=
  m.map (fun ex => (ex.take itl).map (fun row => row.map (fun _ => false)) ++ ex.drop itl)

/-- The whole instruction-masking loop over the batch instruction lengths. -/
def applyInstrMask (itls : List Nat) (m : Mask3) : Mask3 :=
  itls.foldl (fun acc itl => zeroFirstRows itl acc) m

/-- Model of torch.cat(dim=2) of two 3-D tensors: requires equal batch and per-example
time dimensions, otherwise raises the size-mismatch RuntimeError. -/
def torch_cat_dim2 {α : Type} (a b : List (List (List α))) :
    Except String (List (List (List α))) :=
  if a.length = b.length ∧ a.map List.length = b.map List.length then
    Except.ok (List.zipWith (fun x y => List.zipWith (fun r s => r ++ s) x y) a b)
  else Except.error "Sizes of tensors must match except in dimension 2"

/-- Elementwise tokens[:, :, 1:] != speech_pad_id. -/
def speechNotPadMask (cfg : Config) (tokens : Mat3) : Mask3 :=
  tokens.map (fun ex => ex.map (fun row =>
    (row.drop 1).map (fun x => decide (x ≠ cfg.speech_pad_id))))

/-- Elementwise tokens[:, :, 0:1] != text_pad_id. -/
def textNotPadMask (text_pad_id : Int) (tokens : Mat3) : Mask3 :=
  tokens.map (fun ex => ex.map (fun row =>
    (row.take 1).map (fun x => decide (x ≠ text_pad_id))))

/-- Shape entry 1 (tokens.shape 1) of a collated 3-D tensor (every example shares the padded
time length). -/
def dim1 (m : Mat3) : Nat := (m.headI).length

/-- Shape entry 2 (tokens.shape 2) of a 3-D tensor. -/
def dim2 (m : Mat3) : Nat := ((m.headI).headI).length

/-- Results of one batch-assembly branch (lines 395-494): the assembled
3-D token tensor, the (not yet shifted) loss mask, the per-example full
lengths, and the target_text_lengths value the branch leaves behind. -/
structure AsmOut where
  tokens3 : Mat3
  loss_mask : Mask3
  full_lengths : List Int
  ttl_out : List Int

/-- The s2s token list (lines 396-405): per example, the target text rows up
to and including the end marker, then the target codec rows up to and
including its end marker; unless t5-style, the instruction rows are
prepended. -/
def s2sTokenList (cfg : Config) (tp : TextProcessing) (codec : CodecOut) (conv : ConvOut) :
    Mat3 :=
  let token_list :=
    ((conv.target_texts_expanded.zip conv.target_text_lengths).zip
        (codec.target_codec.zip codec.features_lens)).map
      (fun p => p.1.1.take (p.1.2 + 1) ++ p.2.1.take (p.2.2 + 1))
  if cfg.t5_style then token_list
  else
    (token_list.zip (conv.instructions_expanded_no_eos.zip conv.instruction_lengths)).map
      (fun p => p.2.1.take p.2.2 ++ p.1)

/-- The collated s2s token tensor (line 406). -/
def s2sTokens (cfg : Config) (tp : TextProcessing) (codec : CodecOut) (conv : ConvOut) :
    Mat3 :=
  (collate_and_pad_3d cfg tp.pad_id (s2sTokenList cfg tp codec conv)).1

/-- The s2s text-column loss mask (lines 411-415): tokens[:, :, 0:1] != pad,
with the instruction prefix zeroed unless t5-style. -/
def s2sTextMask (cfg : Config) (tp : TextProcessing) (codec : CodecOut) (conv : ConvOut) :
    Mask3 :=
  if cfg.t5_style then textNotPadMask tp.pad_id (s2sTokens cfg tp codec conv)
  else
    applyInstrMask conv.instruction_lengths
      (textNotPadMask tp.pad_id (s2sTokens cfg tp codec conv))

/-- The s2s speech-columns loss mask (lines 410, 413-414). -/
def s2sSpeechMask (cfg : Config) (tp : TextProcessing) (codec : CodecOut) (conv : ConvOut) :
    Mask3 :=
  if cfg.t5_style then speechNotPadMask cfg (s2sTokens cfg tp codec conv)
  else
    applyInstrMask conv.instruction_lengths
      (speechNotPadMask cfg (s2sTokens cfg tp codec conv))

/-- Embedding of the s2s branch (lines 395-417): assembled tokens, the
text-then-speech concatenated loss mask, and the elementwise full lengths. -/
def s2sBranch (cfg : Config) (tp : TextProcessing) (codec : CodecOut) (conv : ConvOut) :
    Except String AsmOut := do
  let loss_mask ← torch_cat_dim2 (s2sTextMask cfg tp codec conv) (s2sSpeechMask cfg tp codec conv)
  let full_lengths :=
    ((conv.target_text_lengths.zip codec.features_lens).zip conv.instruction_lengths).map
      (fun p => (p.1.1 : Int) + 1 + (p.1.2 : Int) + 1 + (p.2 : Int))
  Except.ok { tokens3 := s2sTokens cfg tp codec conv, loss_mask := loss_mask,
              full_lengths := full_lengths,
              ttl_out := conv.target_text_lengths.map (fun n => (n : Int)) }

/-- The align token list (lines 420-445): the target codec with its text
column overwritten by the time-expanded word tokens, a begin-marker row
(text bos, speech bos) prepended, and, unless t5-style, the instruction
prefix. -/
def alignTokenList (cfg : Config) (tp : TextProcessing) (pcs : List PerCut)
    (codec : CodecOut) (conv : ConvOut) : Mat3 :=
  let bosRow : List Int := tp.bos_id :: List.replicate (speechChannels cfg) cfg.speech_bos_id
  let target_texts_expanded_2d := expand_text_with_timestamps_and_word_lengths
    cfg.decoder_reduction_factor tp.pad_id
    (pcs.map (fun p => p.target_text))
    ((pcs.filter (fun p => p.use_timestamp)).map (fun p => p.word_length))
    ((pcs.filter (fun p => p.use_timestamp)).map (fun p => p.start_time_token))
    (codec.features_lens.map (fun f => f + 1))
    (ratDivExact cfg.codec_model_downsampling_factor ((cfg.sample_rate : Int) : ℚ))
    tp.unk_id
  let target_codec := (codec.target_codec.zip target_texts_expanded_2d).map
    (fun p => List.zipWith (fun row tx => tx :: row.drop 1) p.1 p.2)
  let token_list := target_codec.map (fun ex => bosRow :: ex)
  if cfg.t5_style then token_list
  else
    (token_list.zip (conv.instructions_expanded_no_eos.zip conv.instruction_lengths)).map
      (fun p => p.2.1.take p.2.2 ++ p.1)

/-- The collated align token tensor (line 446). -/
def alignTokens (cfg : Config) (tp : TextProcessing) (pcs : List PerCut) (codec : CodecOut)
    (conv : ConvOut) : Mat3 :=
  (collate_and_pad_3d cfg tp.pad_id (alignTokenList cfg tp pcs codec conv)).1

/-- The align loss mask (lines 447-452): the speech not-pad mask with its
first column duplicated into the text column, instruction prefix zeroed
unless t5-style. -/
def alignLossMask (cfg : Config) (tp : TextProcessing) (pcs : List PerCut) (codec : CodecOut)
    (conv : ConvOut) : Mask3 :=
  if cfg.t5_style then
    (speechNotPadMask cfg (alignTokens cfg tp pcs codec conv)).map
      (fun ex => ex.map (fun row => row.take 1 ++ row))
  else
    applyInstrMask conv.instruction_lengths
      ((speechNotPadMask cfg (alignTokens cfg tp pcs codec conv)).map
        (fun ex => ex.map (fun row => row.take 1 ++ row)))

/-- Embedding of the s2s_align branch (lines 419-454): the assembled tokens and
mask above, the elementwise full lengths over the incremented feature lengths,
and target_text_lengths overwritten with -1 ones. -/
def alignBranch (cfg : Config) (tp : TextProcessing) (pcs : List PerCut) (codec : CodecOut)
    (conv : ConvOut) : Except String AsmOut :=
  Except.ok { tokens3 := alignTokens cfg tp pcs codec conv,
              loss_mask := alignLossMask cfg tp pcs codec conv,
              full_lengths := (((codec.features_lens.map (fun f => f + 1) : List Nat)).zip
                  conv.instruction_lengths).map (fun p => (p.1 : Int) + 1 + (p.2 : Int)),
              ttl_out := conv.target_text_lengths.map (fun _ => (-1 : Int)) }

/-- Embedding of the direct_s2s branch (lines 455-476): only the begin-marker
row of the expanded target text, then the codec rows; note the loop-leaked
singular `instruction_length` (the last example's) broadcast into every full
length. -/
def directBranch (cfg : Config) (tp : TextProcessing) (pcs : List PerCut) (codec : CodecOut)
    (conv : ConvOut) : Except String AsmOut := do
  let token_list := (conv.target_texts_expanded.zip (codec.target_codec.zip codec.features_lens)).map
    (fun p => p.1.take 1 ++ p.2.1.take (p.2.2 + 1))
  let token_list :=
    if cfg.t5_style then token_list
    else
      (token_list.zip (conv.instructions_expanded_no_eos.zip conv.instruction_lengths)).map
        (fun p => p.2.1.take p.2.2 ++ p.1)
  let tokens := (collate_and_pad_3d cfg tp.pad_id token_list).1
  let speech_loss_mask := speechNotPadMask cfg tokens
  let text_loss_mask := textNotPadMask tp.pad_id tokens
  let speech_loss_mask :=
    if cfg.t5_style then speech_loss_mask
    else applyInstrMask conv.instruction_lengths speech_loss_mask
  let text_loss_mask :=
    if cfg.t5_style then text_loss_mask
    else applyInstrMask conv.instruction_lengths text_loss_mask
  let loss_mask ← torch_cat_dim2 text_loss_mask speech_loss_mask
  let lastInstr := (pcs.getLastD defaultPerCut).instruction_length
  let full_lengths := codec.features_lens.map (fun f => 1 + (f : Int) + 1 + lastInstr)
  Except.ok { tokens3 := tokens, loss_mask := loss_mask, full_lengths := full_lengths,
              ttl_out := conv.target_text_lengths.map (fun n => (n : Int)) }

/-- Embedding of the s2t branch (lines 477-494): only the target-text rows (and
optionally the instruction prefix); the speech mask is a zero tensor built with
time dimension `tokens.shape 1 - 1`, one row shorter than the text mask, and
the loop-leaked singular `instruction_length` enters every full length.
For a nonempty batch the time dimension is at least 1, so the later mask
concatenation always fails on the one-row mismatch; in the degenerate
zero-time case the source already raises inside torch.zeros (negative
dimension), which the truncated natural subtraction here does not reproduce.
This definition is the token list of lines 478-484. -/
def s2tTokenList (cfg : Config) (tp : TextProcessing) (conv : ConvOut) : Mat3 :=
  let token_list := (conv.target_texts_expanded.zip conv.target_text_lengths).map
    (fun p => p.1.take (p.2 + 1))
  if cfg.t5_style then token_list
  else
    (token_list.zip (conv.instructions_expanded_no_eos.zip conv.instruction_lengths)).map
      (fun p => p.2.1.take p.2.2 ++ p.1)

/-- The collated s2t token tensor (line 485). -/
def s2tTokens (cfg : Config) (tp : TextProcessing) (conv : ConvOut) : Mat3 :=
  (collate_and_pad_3d cfg tp.pad_id (s2tTokenList cfg tp conv)).1

/-- The s2t zero speech mask (line 487): its time dimension is
`tokens.shape 1 - 1`, one row shorter than the tokens tensor. -/
def s2tZeroMask (cfg : Config) (tp : TextProcessing) (conv : ConvOut) : Mask3 :=
  List.replicate (s2tTokens cfg tp conv).length
    (List.replicate (dim1 (s2tTokens cfg tp conv) - 1)
      (List.replicate (dim2 (s2tTokens cfg tp conv)) false))

/-- The s2t speech-columns loss mask (lines 487, 490-492). -/
def s2tSpeechMask (cfg : Config) (tp : TextProcessing) (conv : ConvOut) : Mask3 :=
  if cfg.t5_style then s2tZeroMask cfg tp conv
  else applyInstrMask conv.instruction_lengths (s2tZeroMask cfg tp conv)

/-- The s2t text-column loss mask (lines 488, 490-492). -/
def s2tTextMask (cfg : Config) (tp : TextProcessing) (conv : ConvOut) : Mask3 :=
  if cfg.t5_style then textNotPadMask tp.pad_id (s2tTokens cfg tp conv)
  else applyInstrMask conv.instruction_lengths (textNotPadMask tp.pad_id (s2tTokens cfg tp conv))

/-- Embedding of the s2t branch tail (lines 493-494): the mask concatenation
and, were it to succeed, the assembled output with the loop-leaked singular
`instruction_length` in every full length. -/
def s2tBranch (cfg : Config) (tp : TextProcessing) (pcs : List PerCut) (codec : CodecOut)
    (conv : ConvOut) : Except String AsmOut := do
  let loss_mask ← torch_cat_dim2 (s2tTextMask cfg tp conv) (s2tSpeechMask cfg tp conv)
  let lastInstr := (pcs.getLastD defaultPerCut).instruction_length
  let full_lengths := conv.target_text_lengths.map (fun t => (t : Int) + 1 + lastInstr)
  Except.ok { tokens3 := s2tTokens cfg tp conv, loss_mask := loss_mask,
              full_lengths := full_lengths,
              ttl_out := conv.target_text_lengths.map (fun n => (n : Int)) }

/-- The mode dispatch of lines 395-494: the flags are read (getattr with
default False) from the loop-leaked `cut` variable, the last sorted cut; when
no flag is set, line 495 raises NameError because no branch assigned
`tokens`. -/
def assembleStage (cfg : Config) (tp : TextProcessing) (cutsS : List Cut) (pcs : List PerCut)
    (codec : CodecOut) (conv : ConvOut) : Except String AsmOut :=
  if (cutsS.getLastD defaultCut).s2s then s2sBranch cfg tp codec conv
  else if (cutsS.getLastD defaultCut).s2s_align then alignBranch cfg tp pcs codec conv
  else if (cutsS.getLastD defaultCut).direct_s2s then directBranch cfg tp pcs codec conv
  else if (cutsS.getLastD defaultCut).s2t then s2tBranch cfg tp pcs codec conv
  else Except.error "NameError: name tokens is not defined"

/-- Slice tokens[:, :-1, :] (line 514). -/
def tokens_trim (m : Mat3) : Mat3 := m.map List.dropLast

/-- Slice tokens[:, 1:, :] (lines 516 and 521). -/
def labels_of (m : Mat3) : Mat3 := m.map (List.drop 1)

/-- Slice loss_mask[:, 1:, :] (line 498). -/
def shift_mask (m : Mask3) : Mask3 := m.map (List.drop 1)

/-- Audio lengths of the source-audio step (lines 250-259). -/
def audioLens (cutsS : List Cut) : List Nat :=
  (cutsS.map (fun c => c.audio)).map List.length

/-- The returned batch dictionary (lines 503-524), with the fields the claims
are about; `target_texts_expanded` is omitted because its type differs between
the align branch (a 2-D tensor) and the others (the 3-D tensor). -/
structure Batch where
  sample_ids : List String
  audio_signal : List (List ℚ)
  audio_signal_length : List Nat
  audio_ratio_field : List ℚ
  metadata : List String
  instructions : List (List Int)
  contexts : Mat3
  context_lengths : List Nat
  tokens : Mat3
  tokens_length : List Int
  labels : Mat3
  loss_mask : Mask3
  target_texts : List (List Int)
  target_text_lengths : List Int
  answers : Mat3
  answer_audio : Option (List (List ℚ))
  answer_audio_lens : Option (List Nat)
deriving DecidableEq, Repr

/-- Assembly of the returned dictionary (lines 495-524): clamp the full
lengths to the realized time dimension, shift the loss mask, and trim the
token tensor into model inputs and next-step labels. -/
def mkBatch (cfg : Config) (tp : TextProcessing) (cutsS : List Cut) (pcs : List PerCut)
    (maxA : Nat) (codec : CodecOut) (conv : ConvOut) (asm : AsmOut) : Batch :=
  let tdim := dim1 asm.tokens3
  let full_lengths := asm.full_lengths.map (fun x => min x (tdim : Int))
  { sample_ids := cutsS.map (fun c => c.id)
    audio_signal := collate_rows (cutsS.map (fun c => c.audio)) maxA (0 : ℚ)
    audio_signal_length := audioLens cutsS
    audio_ratio_field := cutsS.map (fun _ => (1 : ℚ))
    metadata := cutsS.map (fun c => c.id ++ ".wav")
    instructions := conv.instructions
    contexts := conv.instructions_expanded_no_eos
    context_lengths := conv.instruction_lengths
    tokens := tokens_trim asm.tokens3
    tokens_length := full_lengths.map (fun x => x - 1)
    labels := labels_of asm.tokens3
    loss_mask := shift_mask asm.loss_mask
    target_texts := conv.target_texts
    target_text_lengths := asm.ttl_out
    answers := labels_of asm.tokens3
    answer_audio := codec.answer_audios
    answer_audio_lens := codec.answer_audio_lens }

/-- Embedding of `LhotseAudioQuestionAnswerDataset.__getitem__`
(lines 107-526): sort the cuts by duration, run the per-cut tokenization loop,
collate the source audio (Python max raises on an empty batch), build the
target codec, convert target texts and instructions to 3-D tensors, run the
mode branch, and assemble the returned batch.  The `default_context`
constructor argument only feeds the context mutation of lines 265-271, which
nothing later reads. -/
def getitem (cfg : Config) (tp : TextProcessing) (_default_context : String)
    (cuts : List Cut) : Except String Batch := do
  let pcs ← processCuts tp (sort_by_duration cuts)
  let maxA ← pyMaxNat (audioLens (sort_by_duration cuts))
  let codec ← targetCodecStage cfg tp (sort_by_duration cuts)
  let asm ← assembleStage cfg tp (sort_by_duration cuts) pcs codec (convertStage cfg tp pcs)
  Except.ok
    (mkBatch cfg tp (sort_by_duration cuts) pcs maxA codec (convertStage cfg tp pcs) asm)

/-- Entry of a 3-D token tensor at (batch, time, channel), default 0 out of
range. -/
def entry3 (m : Mat3) (b t c : Nat) : Int := ((m.getD b []).getD t []).getD c 0

/-- Entry of a 3-D mask tensor, default false out of range. -/
def mentry (m : Mask3) (b t c : Nat) : Bool := ((m.getD b []).getD t []).getD c false

/-- Project the batch out of a successful `getitem` result. -/
def okOrDefault (e : Except String Batch) (d : Batch) : Batch :=
  match e with
  | Except.ok b => b
  | Except.error _ => d

def defaultBatch : Batch :=
  { sample_ids := [], audio_signal := [], audio_signal_length := [], audio_ratio_field := [],
    metadata := [], instructions := [], contexts := [], context_lengths := [], tokens := [],
    tokens_length := [], labels := [], loss_mask := [], target_texts := [],
    target_text_lengths := [], answers := [], answer_audio := none, answer_audio_lens := none }

/-- A concrete text processor used by the witnesses. -/
def tpEx : TextProcessing :=
  { pad_id := 0, unk_id := 1, bos_id := 5, eos_id := 2,
    process_example := fun _ _ =>
      { input_ids := [5, 7, 2], context_ids := [5, 7], answer_ids := [5, 8, 2] } }

/-- A concrete configuration used by the witnesses. -/
def cfgEx : Config :=
  { tokens_to_generate := 0, pad_to_max_length := false, max_seq_length := 16,
    vocab_sizes := [100, 50], decoder_reduction_factor := 1,
    speech_pad_id := 1001, speech_unk_id := 1002, speech_bos_id := 1003, speech_eos_id := 1004,
    sample_rate := 1, t5_style := false, load_answer_audio := true,
    codec_model_downsampling_factor := 1 }

/-- A concrete s2s-mode cut used by the witnesses. -/
def cutS2S : Cut :=
  { id := "ex0", duration := 1, supervisions := [⟨"user", "hi"⟩, ⟨"agent", "yo"⟩],
    s2s := true, s2s_align := false, direct_s2s := false, s2t := false,
    audio := [0, 0], target_audio := [0, 0, 0], target_codes := [] }

/-- The same cut carrying the s2t flag instead. -/
def cutS2T : Cut := { cutS2S with s2s := false, s2t := true }

/-- The same cut carrying the s2s_align flag, with a time-annotated agent
text. -/
def cutAlign : Cut :=
  { cutS2S with
    s2s := false,
    s2s_align := true,
    supervisions := [⟨"user", "hi"⟩, ⟨"agent", "<|0|> a <|1|> <|2|> b <|3|>"⟩] }

/-- A cut whose first supervision is spoken by the agent. -/
def cutBadSpeaker : Cut :=
  { cutS2S with supervisions := [⟨"agent", "yo"⟩, ⟨"user", "hi"⟩] }

/-- The concrete batch produced by the s2s witness run. -/
def batchS2S : Batch := okOrDefault (getitem cfgEx tpEx "" [cutS2S]) defaultBatch

/-- The concrete batch produced by the s2s_align witness run. -/
def batchAlign : Batch := okOrDefault (getitem cfgEx tpEx "" [cutAlign]) defaultBatch

def defaultCodecOut : CodecOut :=
  { features_lens := [], target_codec := [], answer_audios := none, answer_audio_lens := none }

def defaultAsmOut : AsmOut :=
  { tokens3 := [], loss_mask := [], full_lengths := [], ttl_out := [] }

/-- The concrete per-cut data of the s2s witness run. -/
def pcsS2S : List PerCut :=
  (processCuts tpEx (sort_by_duration [cutS2S])).toOption.getD []

/-- The concrete audio max length of the s2s witness run. -/
def maxAS2S : Nat :=
  (pyMaxNat (audioLens (sort_by_duration [cutS2S]))).toOption.getD 0

/-- The concrete codec-stage output of the s2s witness run. -/
def codecS2S : CodecOut :=
  (targetCodecStage cfgEx tpEx (sort_by_duration [cutS2S])).toOption.getD defaultCodecOut

/-- The concrete assembled output of the s2s witness run. -/
def asmS2S : AsmOut :=
  (assembleStage cfgEx tpEx (sort_by_duration [cutS2S]) pcsS2S codecS2S
    (convertStage cfgEx tpEx pcsS2S)).toOption.getD defaultAsmOut

/-- A text processor whose word tokenization emits the text pad id inside a
word (the answer ids of a word are [pad, eos]); the collaborator contract of
the spec fixes the trailing end marker but does not exclude the pad id from
the body of answer_ids. -/
def tpBad : TextProcessing :=
  { pad_id := 0, unk_id := 1, bos_id := 5, eos_id := 2,
    process_example := fun _ _ =>
      { input_ids := [5, 7, 2], context_ids := [5, 7], answer_ids := [0, 2] } }

/-- A single-word s2s_align cut (agent text carries one word between two time
tokens), audio as in the s2s fixture. -/
def cutAlignBad : Cut :=
  { cutS2S with
    s2s := false, s2s_align := true,
    supervisions := [{ speaker := "user", text := "hi" },
                     { speaker := "agent", text := "<|0|> a <|1|>" }] }

/-- The batch the align branch assembles from `cutAlignBad` under `tpBad`. -/
def batchAlignBad : Batch := okOrDefault (getitem cfgEx tpBad "" [cutAlignBad]) defaultBatch

/-! Theorems and witnesses about the embedding. -/

theorem le_listMaxNat {l : List Nat} {x : Nat} (hx : x ∈ l) : x ≤ listMaxNat l := by
  induction l with
  | nil => cases hx
  | cons a t ih =>
    rcases List.mem_cons.mp hx with h | h
    · subst h; exact Nat.le_max_left _ _
    · exact Nat.le_trans (ih h) (Nat.le_max_right _ _)

theorem listMaxNat_le {l : List Nat} {L : Nat} (h : ∀ x ∈ l, x ≤ L) : listMaxNat l ≤ L := by
  induction l with
  | nil => exact Nat.zero_le _
  | cons a t ih =>
    exact max_le (h a (List.mem_cons_self a t)) (ih fun x hx => h x (List.mem_cons_of_mem a hx))

theorem getD_map_of_lt {α β : Type} (f : α → β) (l : List α) (i : Nat) (d : α) (d' : β)
    (h : i < l.length) : (l.map f).getD i d' = f (l.getD i d) := by
  induction l generalizing i with
  | nil => simp at h
  | cons a t ih =>
    cases i with
    | zero => rfl
    | succ n => exact ih n (by simpa using h)

theorem getD_mem_of_lt {α : Type} (l : List α) (i : Nat) (d : α) (h : i < l.length) :
    l.getD i d ∈ l := by
  induction l generalizing i with
  | nil => simp at h
  | cons a t ih =>
    cases i with
    | zero => exact List.mem_cons_self _ _
    | succ n => exact List.mem_cons_of_mem a (ih n (by simpa using h))

/-- Claim C1, counterexample: with a floating batch whose first sequence is empty,
`collate_vectors` casts the result to int64 and truncates 5/2 to 2, so the second
input sequence is not preserved as a prefix of its row (the claim would force
row 1 of the [2, 1] result to be exactly [5/2]). -/
theorem c1_counterexample :
    (collate_vectors [[], [q5half]] 1 0 DType.float32).rows.getD 1 [] ≠ [q5half] := by
  decide

/-- Claim C1 (amended): for every non-empty list of 1-D sequences whose FIRST
sequence is non-empty (so the int-cast edge case does not fire) and every pad
target L at least the maximum item length, `collate_vectors` returns a 2-D array
of shape [N, L] in which each input sequence is preserved unchanged as a prefix
of its row and every remaining position of that row equals the pad value. -/
theorem c1_pad_shape_and_preserved (items : List (List ℚ)) (L : Nat) (pad : ℚ) (dt : DType)
    (hne : items ≠ []) (hhead : items.headI ≠ [])
    (hL : ∀ s ∈ items, s.length ≤ L) :
    (collate_vectors items L pad dt).rows.length = items.length ∧
    (collate_vectors items L pad dt).dtype = dt ∧
    ∀ i, i < items.length →
      (collate_vectors items L pad dt).rows.getD i [] =
        items.getD i [] ++ List.replicate (L - (items.getD i []).length) pad ∧
      ((collate_vectors items L pad dt).rows.getD i []).length = L := by
  have hcast : ¬ (items.headI).length < 1 := by
    simpa [Nat.lt_one_iff, List.length_eq_zero] using hhead
  have hmax : listMaxNat (items.map List.length) ≤ L := by
    apply listMaxNat_le
    intro x hx
    obtain ⟨s, hs, rfl⟩ := List.mem_map.mp hx
    exact hL s hs
  have hlen_mem : ∀ i, i < items.length → (items.getD i []).length ≤ listMaxNat (items.map List.length) := by
    intro i hi
    exact le_listMaxNat (List.mem_map.mpr ⟨items.getD i [], getD_mem_of_lt items i [] hi, rfl⟩)
  unfold collate_vectors collate_vectors_lhotse
  simp only [hcast, if_false]
  by_cases hwL : listMaxNat (items.map List.length) < L
  · simp only [hwL, if_true]
    refine ⟨by rw [List.length_map, List.length_map], by trivial, ?_⟩
    intro i hi
    have hrow :
        ((items.map (fun v => v ++ List.replicate (listMaxNat (items.map List.length) - v.length) pad)).map
            (fun r => r ++ List.replicate (L - listMaxNat (items.map List.length)) pad)).getD i [] =
          (items.getD i [] ++ List.replicate (listMaxNat (items.map List.length) - (items.getD i []).length) pad)
            ++ List.replicate (L - listMaxNat (items.map List.length)) pad := by
      rw [getD_map_of_lt _ _ i ([] : List ℚ) [] (by simpa using hi)]
      rw [getD_map_of_lt _ _ i ([] : List ℚ) [] hi]
    have hmerge :
        (items.getD i [] ++ List.replicate (listMaxNat (items.map List.length) - (items.getD i []).length) pad)
            ++ List.replicate (L - listMaxNat (items.map List.length)) pad =
          items.getD i [] ++ List.replicate (L - (items.getD i []).length) pad := by
      rw [List.append_assoc, ← List.replicate_add]
      congr 2
      have h1 := hlen_mem i hi
      omega
    refine ⟨by rw [hrow, hmerge], ?_⟩
    rw [hrow, hmerge, List.length_append, List.length_replicate]
    have h2 : (items.getD i []).length ≤ L := hL _ (getD_mem_of_lt items i [] hi)
    omega
  · have hEq : listMaxNat (items.map List.length) = L := Nat.le_antisymm hmax (Nat.not_lt.mp hwL)
    simp only [hwL, if_false]
    refine ⟨by rw [List.length_map], by trivial, ?_⟩
    intro i hi
    have hrow :
        (items.map (fun v => v ++ List.replicate (listMaxNat (items.map List.length) - v.length) pad)).getD i [] =
          items.getD i [] ++ List.replicate (listMaxNat (items.map List.length) - (items.getD i []).length) pad :=
      getD_map_of_lt _ _ i ([] : List ℚ) [] hi
    refine ⟨by rw [hrow, hEq], ?_⟩
    rw [hrow, hEq, List.length_append, List.length_replicate]
    have h2 : (items.getD i []).length ≤ L := hL _ (getD_mem_of_lt items i [] hi)
    omega

/-- Witness for C1's amended theorem at the concrete batch [[1], [2, 3]] with
pad target 3 and pad value 9. -/
theorem c1_pad_shape_and_preserved_witness :
    ((([[1], [2, 3]] : List (List ℚ)) ≠ []) ∧
      (([[1], [2, 3]] : List (List ℚ)).headI ≠ []) ∧
      (∀ s ∈ ([[1], [2, 3]] : List (List ℚ)), s.length ≤ 3)) ∧
    (collate_vectors [[1], [2, 3]] 3 9 DType.float32).rows.getD 1 [] = [2, 3, 9] :=
  ⟨⟨by decide, by decide, by decide⟩, by
    have h := (c1_pad_shape_and_preserved [[1], [2, 3]] 3 9 DType.float32 (by decide) (by decide)
        (by decide)).2.2 1 (by decide)
    have h1 := h.1
    simpa using h1⟩

/-- Claim C7: when the first item of the batch is an empty-length sequence,
`collate_vectors` casts the result with `.long()`, so the output dtype is the
integer dtype and every stored value is integer-valued, even for floating
inputs. -/
theorem c7_empty_first_integer_dtype (items : List (List ℚ)) (L : Nat) (pad : ℚ)
    (hne : items ≠ []) (hhead : items.headI = []) :
    (collate_vectors items L pad DType.float32).dtype = DType.int64 ∧
    ∀ r ∈ (collate_vectors items L pad DType.float32).rows, ∀ q ∈ r, q.den = 1 := by
  have hcast : (items.headI).length < 1 := by simp [hhead]
  unfold collate_vectors collate_vectors_lhotse
  simp only [hcast, if_true]
  refine ⟨rfl, ?_⟩
  intro r hr q hq
  simp only [tensorLong, List.mem_map] at hr
  obtain ⟨r0, _, rfl⟩ := hr
  simp only [List.mem_map] at hq
  obtain ⟨q0, _, rfl⟩ := hq
  exact Rat.den_intCast _

/-- Witness for C7 at the concrete floating batch [[], [5/2]]. -/
theorem c7_empty_first_integer_dtype_witness :
    ((([[], [q5half]] : List (List ℚ)) ≠ []) ∧ (([[], [q5half]] : List (List ℚ)).headI = [])) ∧
    ((collate_vectors [[], [q5half]] 2 0 DType.float32).dtype = DType.int64 ∧
      ∀ r ∈ (collate_vectors [[], [q5half]] 2 0 DType.float32).rows, ∀ q ∈ r, q.den = 1) :=
  ⟨⟨by decide, rfl⟩, c7_empty_first_integer_dtype [[], [q5half]] 2 0 (by decide) rfl⟩

theorem except_bind_ok {ε α β : Type} (a : α) (f : α → Except ε β) :
    (Except.ok a >>= f) = f a := rfl

theorem except_bind_error {ε α β : Type} (e : ε) (f : α → Except ε β) :
    ((Except.error e : Except ε α) >>= f) = Except.error e := rfl

theorem getq_zipWith {α β γ : Type} (f : α → β → γ) (as : List α) (bs : List β) (i : Nat) :
    (List.zipWith f as bs)[i]? = (as[i]?).bind (fun a => (bs[i]?).map (f a)) := by
  induction as generalizing bs i with
  | nil => cases bs <;> cases i <;> simp
  | cons a ta ih =>
    cases bs with
    | nil => cases i <;> simp
    | cons b tb =>
      cases i with
      | zero => simp
      | succ n => simpa using ih tb n

theorem mem_insertByDuration (x c : Cut) (l : List Cut) :
    x ∈ insertByDuration c l ↔ x = c ∨ x ∈ l := by
  induction l with
  | nil => simp [insertByDuration]
  | cons d ds ih =>
    simp only [insertByDuration]
    by_cases h : d.duration ≤ c.duration
    · simp [h, List.mem_cons]
    · simp only [h, if_false, List.mem_cons, ih]
      tauto

theorem mem_sort_by_duration (x : Cut) (l : List Cut) :
    x ∈ sort_by_duration l ↔ x ∈ l := by
  induction l with
  | nil => simp [sort_by_duration]
  | cons c cs ih =>
    simp [sort_by_duration, mem_insertByDuration, ih, List.mem_cons]

theorem length_insertByDuration (c : Cut) (l : List Cut) :
    (insertByDuration c l).length = l.length + 1 := by
  induction l with
  | nil => rfl
  | cons d ds ih =>
    simp only [insertByDuration]
    by_cases h : d.duration ≤ c.duration
    · simp [h]
    · simp [h, ih]

theorem length_sort_by_duration (l : List Cut) :
    (sort_by_duration l).length = l.length := by
  induction l with
  | nil => rfl
  | cons c cs ih => simp [sort_by_duration, length_insertByDuration, ih]

theorem sort_by_duration_ne_nil {l : List Cut} (h : l ≠ []) : sort_by_duration l ≠ [] := by
  intro hc
  apply h
  have hlen := length_sort_by_duration l
  rw [hc] at hlen
  exact List.length_eq_zero.mp hlen.symm

theorem getLastD_mem {α : Type} : ∀ (l : List α) (d : α), l ≠ [] → l.getLastD d ∈ l
  | [], _, h => absurd rfl h
  | [a], d, _ => by simp
  | a :: b :: t, d, _ => by
    rw [List.getLastD_cons]
    exact List.mem_cons_of_mem a (getLastD_mem (b :: t) a (by simp))

theorem getitem_ok_elim {cfg : Config} {tp : TextProcessing} {dc : String} {cuts : List Cut}
    {batch : Batch} (hok : getitem cfg tp dc cuts = Except.ok batch) :
    ∃ pcs maxA codec asm,
      processCuts tp (sort_by_duration cuts) = Except.ok pcs ∧
      pyMaxNat (audioLens (sort_by_duration cuts)) = Except.ok maxA ∧
      targetCodecStage cfg tp (sort_by_duration cuts) = Except.ok codec ∧
      assembleStage cfg tp (sort_by_duration cuts) pcs codec (convertStage cfg tp pcs) =
        Except.ok asm ∧
      batch =
        mkBatch cfg tp (sort_by_duration cuts) pcs maxA codec (convertStage cfg tp pcs) asm := by
  unfold getitem at hok
  cases h1 : processCuts tp (sort_by_duration cuts) with
  | error e => rw [h1, except_bind_error] at hok; exact absurd hok (by simp)
  | ok pcs =>
    rw [h1, except_bind_ok] at hok
    cases h2 : pyMaxNat (audioLens (sort_by_duration cuts)) with
    | error e => rw [h2, except_bind_error] at hok; exact absurd hok (by simp)
    | ok maxA =>
      rw [h2, except_bind_ok] at hok
      cases h3 : targetCodecStage cfg tp (sort_by_duration cuts) with
      | error e => rw [h3, except_bind_error] at hok; exact absurd hok (by simp)
      | ok codec =>
        rw [h3, except_bind_ok] at hok
        cases h4 : assembleStage cfg tp (sort_by_duration cuts) pcs codec
            (convertStage cfg tp pcs) with
        | error e => rw [h4, except_bind_error] at hok; exact absurd hok (by simp)
        | ok asm =>
          rw [h4, except_bind_ok] at hok
          refine ⟨pcs, maxA, codec, asm, rfl, rfl, rfl, h4, ?_⟩
          exact (Except.ok.inj hok).symm

theorem row2_map_drop {α : Type} (m : List (List (List α))) (b t : Nat) :
    ((m.map (List.drop 1)).getD b []).getD t [] = (m.getD b []).getD (t + 1) [] := by
  cases hb : m[b]? with
  | none => simp [List.getD_eq_getElem?_getD, List.getElem?_map, hb]
  | some ex =>
    simp [List.getD_eq_getElem?_getD, List.getElem?_map, hb, List.getElem?_drop,
      Nat.add_comm]

theorem row2_mapmap {α β : Type} (f : List α → List β) (hf : f [] = [])
    (m : List (List (List α))) (b t : Nat) :
    (((m.map (fun ex => ex.map f)).getD b []).getD t []) = f ((m.getD b []).getD t []) := by
  cases hb : m[b]? with
  | none => simp [List.getD_eq_getElem?_getD, List.getElem?_map, hb, hf]
  | some ex =>
    cases ht : ex[t]? with
    | none => simp [List.getD_eq_getElem?_getD, List.getElem?_map, hb, ht, hf]
    | some row => simp [List.getD_eq_getElem?_getD, List.getElem?_map, hb, ht]

theorem zeroRows_list (ex : List (List Bool)) : ∀ (itl t : Nat),
    ((ex.take itl).map (fun row => row.map (fun _ => false)) ++ ex.drop itl)[t]?.getD [] =
      if t < itl then (ex[t]?.getD []).map (fun _ => false) else ex[t]?.getD [] := by
  induction ex with
  | nil =>
    intro itl t
    by_cases h : t < itl <;> simp [h]
  | cons r rs ih =>
    intro itl t
    cases itl with
    | zero => simp
    | succ n =>
      cases t with
      | zero => simp
      | succ t2 => simpa using ih n t2

theorem zeroFirstRows_row (itl : Nat) (m : Mask3) (b t : Nat) :
    ((zeroFirstRows itl m).getD b []).getD t [] =
      if t < itl then ((m.getD b []).getD t []).map (fun _ => false)
      else (m.getD b []).getD t [] := by
  unfold zeroFirstRows
  cases hb : m[b]? with
  | none =>
    by_cases h : t < itl <;>
      simp [List.getD_eq_getElem?_getD, List.getElem?_map, hb, h]
  | some ex =>
    have h2 := zeroRows_list ex itl t
    simp only [List.getD_eq_getElem?_getD, List.getElem?_map, hb, Option.map_some',
      Option.getD_some]
    exact h2

theorem applyInstrMask_row (itls : List Nat) (m : Mask3) (b t : Nat) :
    ((applyInstrMask itls m).getD b []).getD t [] =
      if itls.any (fun itl => decide (t < itl)) then
        ((m.getD b []).getD t []).map (fun _ => false)
      else (m.getD b []).getD t [] := by
  induction itls generalizing m with
  | nil => simp [applyInstrMask]
  | cons i rest ih =>
    have hstep : applyInstrMask (i :: rest) m = applyInstrMask rest (zeroFirstRows i m) := rfl
    rw [hstep, ih (zeroFirstRows i m), zeroFirstRows_row]
    by_cases h1 : t < i <;> by_cases h2 : rest.any (fun itl => decide (t < itl)) <;>
      simp [h1, h2, List.map_map, Function.comp]

theorem torch_cat_dim2_row {α : Type} {a b m : List (List (List α))}
    (h : torch_cat_dim2 a b = Except.ok m) (bi t : Nat) :
    (m.getD bi []).getD t [] =
      ((a.getD bi []).getD t []) ++ ((b.getD bi []).getD t []) := by
  unfold torch_cat_dim2 at h
  by_cases hc : a.length = b.length ∧ a.map List.length = b.map List.length
  · rw [if_pos hc] at h
    have hm : m = List.zipWith (fun x y => List.zipWith (fun r s => r ++ s) x y) a b :=
      (Except.ok.inj h).symm
    subst hm
    have hrow : (List.zipWith (fun x y => List.zipWith (fun r s => r ++ s) x y) a b)[bi]? =
        (a[bi]?).bind (fun x => (b[bi]?).map (fun y => List.zipWith (fun r s => r ++ s) x y)) :=
      getq_zipWith _ a b bi
    cases ha : a[bi]? with
    | none =>
      have hbnone : b[bi]? = none := by
        apply List.getElem?_eq_none
        rw [← hc.1]
        exact List.getElem?_eq_none_iff.mp ha
      simp [List.getD_eq_getElem?_getD, hrow, ha, hbnone]
    | some x =>
      cases hbq : b[bi]? with
      | none =>
        exfalso
        obtain ⟨hlt, _⟩ := List.getElem?_eq_some_iff.mp ha
        have hle := List.getElem?_eq_none_iff.mp hbq
        rw [hc.1] at hlt
        omega
      | some y =>
        have hlen : x.length = y.length := by
          have h1 : (a.map List.length)[bi]? = (b.map List.length)[bi]? := by rw [hc.2]
          rw [List.getElem?_map, List.getElem?_map, ha, hbq] at h1
          simpa using h1
        have hz := getq_zipWith (fun r s => r ++ s) x y t
        cases hx : x[t]? with
        | none =>
          have hy : y[t]? = none := by
            apply List.getElem?_eq_none
            rw [← hlen]
            exact List.getElem?_eq_none_iff.mp hx
          simp [List.getD_eq_getElem?_getD, hrow, ha, hbq, hz, hx, hy]
        | some r =>
          cases hy : y[t]? with
          | none =>
            exfalso
            obtain ⟨hlt, _⟩ := List.getElem?_eq_some_iff.mp hx
            have hle := List.getElem?_eq_none_iff.mp hy
            rw [hlen] at hlt
            omega
          | some s =>
            simp [List.getD_eq_getElem?_getD, hrow, ha, hbq, hz, hx, hy]
  · rw [if_neg hc] at h
    exact absurd h (by simp)

theorem getD_map_false {α : Type} (l : List α) (c : Nat) :
    (l.map (fun _ => false)).getD c false = false := by
  rw [List.getD_eq_getElem?_getD, List.getElem?_map]
  cases l[c]? <;> simp

theorem getD_mapPred_eq_true {α : Type} (p : α → Bool) (l : List α) (c : Nat) (d : α)
    (h : (l.map (fun x => p x)).getD c false = true) :
    c < l.length ∧ p (l.getD c d) = true := by
  rw [List.getD_eq_getElem?_getD, List.getElem?_map] at h
  cases hc : l[c]? with
  | none => rw [hc] at h; simp at h
  | some x =>
    rw [hc] at h
    simp only [Option.map_some', Option.getD_some] at h
    obtain ⟨hlt, hx⟩ := List.getElem?_eq_some_iff.mp hc
    refine ⟨hlt, ?_⟩
    rw [List.getD_eq_getElem?_getD, hc]
    simpa [hx] using h

theorem s2s_mask_row (cfg : Config) (tp : TextProcessing) (codec : CodecOut) (conv : ConvOut)
    {lm : Mask3}
    (hcat : torch_cat_dim2 (s2sTextMask cfg tp codec conv) (s2sSpeechMask cfg tp codec conv) =
      Except.ok lm) (b u : Nat) :
    (lm.getD b []).getD u [] =
      if cfg.t5_style = false ∧
          conv.instruction_lengths.any (fun itl => decide (u < itl)) = true then
        (((((s2sTokens cfg tp codec conv).getD b []).getD u []).take 1).map
            (fun x => decide (x ≠ tp.pad_id)) ++
          ((((s2sTokens cfg tp codec conv).getD b []).getD u []).drop 1).map
            (fun x => decide (x ≠ cfg.speech_pad_id))).map (fun _ => false)
      else
        ((((s2sTokens cfg tp codec conv).getD b []).getD u []).take 1).map
            (fun x => decide (x ≠ tp.pad_id)) ++
          ((((s2sTokens cfg tp codec conv).getD b []).getD u []).drop 1).map
            (fun x => decide (x ≠ cfg.speech_pad_id)) := by
  have hrow := torch_cat_dim2_row hcat b u
  have htm : ∀ (mm : Mat3),
      ((textNotPadMask tp.pad_id mm).getD b []).getD u [] =
        (((mm.getD b []).getD u []).take 1).map (fun x => decide (x ≠ tp.pad_id)) := by
    intro mm
    exact row2_mapmap (fun row => (row.take 1).map (fun x => decide (x ≠ tp.pad_id))) rfl mm b u
  have hsm : ∀ (mm : Mat3),
      ((speechNotPadMask cfg mm).getD b []).getD u [] =
        (((mm.getD b []).getD u []).drop 1).map (fun x => decide (x ≠ cfg.speech_pad_id)) := by
    intro mm
    exact row2_mapmap (fun row => (row.drop 1).map (fun x => decide (x ≠ cfg.speech_pad_id)))
      rfl mm b u
  cases ht5 : cfg.t5_style with
  | true =>
    rw [hrow]
    unfold s2sTextMask s2sSpeechMask
    rw [ht5]
    simp only [if_true, reduceIte]
    rw [htm, hsm]
    simp
  | false =>
    rw [hrow]
    unfold s2sTextMask s2sSpeechMask
    rw [ht5]
    simp only [Bool.false_eq_true, if_false]
    rw [applyInstrMask_row, applyInstrMask_row, htm, hsm]
    by_cases hany : conv.instruction_lengths.any (fun itl => decide (u < itl)) = true
    · simp only [hany, if_true, true_and]
      simp [List.map_append]
    · simp only [hany, if_false]
      have hany2 : conv.instruction_lengths.any (fun itl => decide (u < itl)) = false := by
        revert hany
        cases conv.instruction_lengths.any (fun itl => decide (u < itl)) <;> simp
      simp [hany2]

/-- Claim C3 (code bug): an s2t batch never assembles: the speech zero-mask is
built with time dimension tokens.shape 1 - 1 (line 487) while the text mask has
the full time dimension, so the torch.cat of line 493 raises the tensor
size-mismatch error; evaluated at a concrete single-cut s2t batch. -/
theorem c3_s2t_cat_size_mismatch :
    getitem cfgEx tpEx "" [cutS2T] =
      Except.error "Sizes of tensors must match except in dimension 2" := by rfl

/-- Claim C4: s2s_align time expansion.  First conjunct: the claim's example,
word tokens a = 10 and b = 20, 21 with word lengths [1, 2] and start frames
[0, 2] (frame rate equal to the timestamp resolution, reduction factor 1)
yield a at frame 0, unknown (1) at frame 1, b's tokens at frames 2 and 3, the
unknown filler at the remaining frames before the end-marker frame, and the
text pad id (0) at the end-marker frame.  Second and third conjuncts: the
start-time token is first rescaled by `discretize_time` and then
integer-divided by the decoder reduction factor (token 4 at reduction factor 2
lands on frame 2).  Fourth conjunct: a word running past the sequence length
is clipped. -/
theorem c4_align_time_expansion :
    expand_text_with_timestamps_and_word_lengths 1 0 [[10, 20, 21]] [[1, 2]] [[0, 2]] [7]
        r008 1 = [[10, 1, 20, 21, 1, 1, 0]] ∧
    discretize_time 4 r008 r008 = 4 ∧
    expand_text_with_timestamps_and_word_lengths 2 0 [[10]] [[1]] [[4]] [4] r008 1 =
      [[1, 1, 10, 0]] ∧
    expand_text_with_timestamps_and_word_lengths 1 0 [[10, 11, 12]] [[3]] [[2]] [4] r008 1 =
      [[1, 1, 10, 0]] := by
  refine ⟨by decide, by decide, by decide, by decide⟩

theorem processCut_ok_speakers {tp : TextProcessing} {c : Cut} {p : PerCut}
    (h : processCut tp c = Except.ok p) :
    (c.supervisions.getD 0 defaultSupervision).speaker = "user" ∧
    (c.supervisions.getD 1 defaultSupervision).speaker = "agent" := by
  simp only [processCut] at h
  by_cases h0 : (c.supervisions.getD 0 defaultSupervision).speaker = "user"
  · by_cases hag : (c.supervisions.getD 1 defaultSupervision).speaker = "agent"
    · exact ⟨h0, hag⟩
    · rw [if_pos h0, if_neg hag] at h
      exact absurd h (by simp)
  · rw [if_neg h0] at h
    exact absurd h (by simp)

theorem processCuts_ok_forall {tp : TextProcessing} :
    ∀ {cs : List Cut} {ps : List PerCut}, processCuts tp cs = Except.ok ps →
      ∀ c ∈ cs, ∃ p, processCut tp c = Except.ok p := by
  intro cs
  induction cs with
  | nil => intro ps _ c hc; cases hc
  | cons a t ih =>
    intro ps h c hc
    unfold processCuts at h
    cases ha : processCut tp a with
    | error e => rw [ha, except_bind_error] at h; exact absurd h (by simp)
    | ok p =>
      rw [ha, except_bind_ok] at h
      cases ht : processCuts tp t with
      | error e => rw [ht, except_bind_error] at h; exact absurd h (by simp)
      | ok pt =>
        rcases List.mem_cons.mp hc with rfl | hmem
        · exact ⟨p, ha⟩
        · exact ih ht c hmem

/-- Claim C5: if any cut's first conversational turn is not spoken by "user" or
its second turn is not spoken by "agent", the batch construction raises
(aborting the whole batch); no batch is ever returned. -/
theorem c5_speaker_order_aborts (cfg : Config) (tp : TextProcessing) (dc : String)
    (cuts : List Cut)
    (hbad : ∃ c ∈ cuts, (c.supervisions.getD 0 defaultSupervision).speaker ≠ "user" ∨
      (c.supervisions.getD 1 defaultSupervision).speaker ≠ "agent") :
    (getitem cfg tp dc cuts).isOk = false := by
  cases hres : getitem cfg tp dc cuts with
  | error e => rfl
  | ok batch =>
    exfalso
    obtain ⟨pcs, maxA, codec, asm, h1, h2, h3, h4, hb⟩ := getitem_ok_elim hres
    obtain ⟨c, hc, hbad2⟩ := hbad
    obtain ⟨p, hp⟩ := processCuts_ok_forall h1 c ((mem_sort_by_duration c cuts).mpr hc)
    have hs := processCut_ok_speakers hp
    tauto

/-- Claim C5, witness: a concrete batch whose only cut has the agent speaking
first is rejected. -/
theorem c5_speaker_order_aborts_witness :
    (∃ c ∈ [cutBadSpeaker],
      (c.supervisions.getD 0 defaultSupervision).speaker ≠ "user" ∨
      (c.supervisions.getD 1 defaultSupervision).speaker ≠ "agent") ∧
    (getitem cfgEx tpEx "" [cutBadSpeaker]).isOk = false :=
  ⟨⟨cutBadSpeaker, by decide, by decide⟩,
    c5_speaker_order_aborts cfgEx tpEx "" [cutBadSpeaker]
      ⟨cutBadSpeaker, by decide, by decide⟩⟩

theorem row2_map_dropLast {α : Type} (m : List (List (List α))) (b u : Nat)
    (h : u + 1 < (m.getD b []).length) :
    ((m.map List.dropLast).getD b []).getD u [] = (m.getD b []).getD u [] := by
  cases hb : m[b]? with
  | none =>
    rw [List.getD_eq_getElem?_getD m b, hb] at h
    simp at h
  | some ex =>
    rw [List.getD_eq_getElem?_getD m b, hb] at h
    simp only [Option.getD_some] at h
    rw [List.getD_eq_getElem?_getD (m.map List.dropLast) b, List.getElem?_map, hb]
    simp only [Option.map_some', Option.getD_some]
    rw [List.getD_eq_getElem?_getD ex.dropLast u, List.dropLast_eq_take,
      List.getElem?_take_of_lt (by omega : u < ex.length - 1)]
    rw [List.getD_eq_getElem?_getD m b, hb]
    simp only [Option.getD_some]
    rw [List.getD_eq_getElem?_getD ex u]

/-- Claim C6: the final trim of the assembled sequence: the returned tokens
are seq[:, :-1, :], the labels seq[:, 1:, :], hence labels[:, t, :] equals
tokens[:, t + 1, :] for every t with t + 2 < T, and the loss mask is shifted
identically by dropping its first time position. -/
theorem c6_final_trim (cfg : Config) (tp : TextProcessing) (dc : String) (cuts : List Cut)
    (pcs : List PerCut) (maxA : Nat) (codec : CodecOut) (asm : AsmOut) (batch : Batch)
    (h1 : processCuts tp (sort_by_duration cuts) = Except.ok pcs)
    (h2 : pyMaxNat (audioLens (sort_by_duration cuts)) = Except.ok maxA)
    (h3 : targetCodecStage cfg tp (sort_by_duration cuts) = Except.ok codec)
    (h4 : assembleStage cfg tp (sort_by_duration cuts) pcs codec (convertStage cfg tp pcs) =
      Except.ok asm)
    (hok : getitem cfg tp dc cuts = Except.ok batch) :
    batch.tokens = tokens_trim asm.tokens3 ∧
    batch.labels = labels_of asm.tokens3 ∧
    batch.loss_mask = shift_mask asm.loss_mask ∧
    ∀ b t c, t + 2 < (asm.tokens3.getD b []).length →
      entry3 batch.labels b t c = entry3 batch.tokens b (t + 1) c := by
  have hbb : batch = mkBatch cfg tp (sort_by_duration cuts) pcs maxA codec
      (convertStage cfg tp pcs) asm := by
    unfold getitem at hok
    rw [h1, except_bind_ok, h2, except_bind_ok, h3, except_bind_ok, h4, except_bind_ok] at hok
    exact (Except.ok.inj hok).symm
  subst hbb
  refine ⟨rfl, rfl, rfl, ?_⟩
  intro b t c hlen
  show entry3 (labels_of asm.tokens3) b t c = entry3 (tokens_trim asm.tokens3) b (t + 1) c
  unfold entry3 labels_of tokens_trim
  rw [row2_map_drop, row2_map_dropLast asm.tokens3 b (t + 1) (by omega)]

/-- Claim C6, witness at the concrete s2s batch: the stage equations hold, the
assembled time dimension exceeds 2, and label (0,0,0) equals token (0,1,0). -/
theorem c6_final_trim_witness :
    (processCuts tpEx (sort_by_duration [cutS2S]) = Except.ok pcsS2S ∧
      pyMaxNat (audioLens (sort_by_duration [cutS2S])) = Except.ok maxAS2S ∧
      targetCodecStage cfgEx tpEx (sort_by_duration [cutS2S]) = Except.ok codecS2S ∧
      assembleStage cfgEx tpEx (sort_by_duration [cutS2S]) pcsS2S codecS2S
        (convertStage cfgEx tpEx pcsS2S) = Except.ok asmS2S ∧
      getitem cfgEx tpEx "" [cutS2S] = Except.ok batchS2S ∧
      0 + 2 < ((asmS2S.tokens3.getD 0 []).length)) ∧
    entry3 batchS2S.labels 0 0 0 = entry3 batchS2S.tokens 0 1 0 :=
  ⟨⟨rfl, rfl, rfl, rfl, rfl, by decide⟩,
    (c6_final_trim cfgEx tpEx "" [cutS2S] pcsS2S maxAS2S codecS2S asmS2S batchS2S
      rfl rfl rfl rfl rfl).2.2.2 0 0 0 (by decide)⟩

/-- Claim C8: every call of __getitem__ fails unless the dataset was
constructed with load_answer_audio set and decoder_reduction_factor 1: the
assert of line 308 fires when load_answer_audio is off (which also makes the
target_codes branch it guards unreachable), and the live branch's assert of
line 334 fires when the reduction factor differs from 1; under either bad
configuration no input ever produces a batch. -/
theorem c8_assert_guards (cfg : Config) (tp : TextProcessing) (dc : String) (cuts : List Cut)
    (hbad : cfg.load_answer_audio = false ∨ cfg.decoder_reduction_factor ≠ 1) :
    (getitem cfg tp dc cuts).isOk = false := by
  cases hres : getitem cfg tp dc cuts with
  | error e => rfl
  | ok batch =>
    exfalso
    obtain ⟨pcs, maxA, codec, asm, h1, h2, h3, h4, hb⟩ := getitem_ok_elim hres
    unfold targetCodecStage at h3
    by_cases hl : cfg.load_answer_audio = true
    · have hb2 : cfg.decoder_reduction_factor ≠ 1 := by
        rcases hbad with hb1 | hb2
        · rw [hl] at hb1; exact absurd hb1 (by simp)
        · exact hb2
      rw [hl] at h3
      simp only [not_true, if_false] at h3
      by_cases hd : ((sort_by_duration cuts).getLastD defaultCut).direct_s2s = true
      · rw [hd] at h3
        simp at h3
      · have hd2 : ((sort_by_duration cuts).getLastD defaultCut).direct_s2s = false := by
          revert hd
          cases ((sort_by_duration cuts).getLastD defaultCut).direct_s2s <;> simp
        rw [hd2] at h3
        simp [hb2] at h3
    · have hl2 : cfg.load_answer_audio = false := by
        revert hl
        cases cfg.load_answer_audio <;> simp
      rw [hl2] at h3
      simp at h3

/-- Claim C8, witness: with load_answer_audio disabled, the concrete s2s batch
is rejected. -/
theorem c8_assert_guards_witness :
    (({ cfgEx with load_answer_audio := false } : Config).load_answer_audio = false ∨
      ({ cfgEx with load_answer_audio := false } : Config).decoder_reduction_factor ≠ 1) ∧
    (getitem { cfgEx with load_answer_audio := false } tpEx "" [cutS2S]).isOk = false :=
  ⟨Or.inl rfl,
    c8_assert_guards { cfgEx with load_answer_audio := false } tpEx "" [cutS2S] (Or.inl rfl)⟩

/-- Claim C9: in every returned batch the answers field is identical to the
labels field, and both are the tokens[:, 1:, :] slice of the assembled
sequence whose tokens[:, :-1, :] slice is the tokens field. -/
theorem c9_answers_equal_labels (cfg : Config) (tp : TextProcessing) (dc : String)
    (cuts : List Cut) (batch : Batch) (hok : getitem cfg tp dc cuts = Except.ok batch) :
    batch.answers = batch.labels ∧
    ∃ seq : Mat3, batch.answers = labels_of seq ∧ batch.tokens = tokens_trim seq := by
  obtain ⟨pcs, maxA, codec, asm, h1, h2, h3, h4, hb⟩ := getitem_ok_elim hok
  subst hb
  exact ⟨rfl, asm.tokens3, rfl, rfl⟩

/-- Claim C9, witness at the concrete s2s batch. -/
theorem c9_answers_equal_labels_witness :
    getitem cfgEx tpEx "" [cutS2S] = Except.ok batchS2S ∧
    batchS2S.answers = batchS2S.labels :=
  ⟨rfl, (c9_answers_equal_labels cfgEx tpEx "" [cutS2S] batchS2S rfl).1⟩

theorem processCuts_length {tp : TextProcessing} :
    ∀ {cs : List Cut} {ps : List PerCut},
      processCuts tp cs = Except.ok ps → ps.length = cs.length := by
  intro cs
  induction cs with
  | nil =>
    intro ps h
    unfold processCuts at h
    rw [← Except.ok.inj h]
    rfl
  | cons a t ih =>
    intro ps h
    unfold processCuts at h
    cases ha : processCut tp a with
    | error e => rw [ha, except_bind_error] at h; exact absurd h (by simp)
    | ok p =>
      rw [ha, except_bind_ok] at h
      cases ht : processCuts tp t with
      | error e => rw [ht, except_bind_error] at h; exact absurd h (by simp)
      | ok pt =>
        rw [ht, except_bind_ok] at h
        rw [← Except.ok.inj h]
        simp [ih ht]

theorem convertStage_ttl_length (cfg : Config) (tp : TextProcessing) (pcs : List PerCut) :
    (convertStage cfg tp pcs).target_text_lengths.length = pcs.length := by
  simp [convertStage, convert_text_to_3d_tensor, collate_and_pad_1d]

/-- Claim C10: in s2s_align mode the returned target_text_lengths field is -1
for every example of the batch (line 454 overwrites the tensor with -1 ones,
discarding the tokenized lengths computed earlier). -/
theorem c10_align_ttl_minus_one (cfg : Config) (tp : TextProcessing) (dc : String)
    (cuts : List Cut) (batch : Batch) (hok : getitem cfg tp dc cuts = Except.ok batch)
    (hmode : ∀ c ∈ cuts, c.s2s = false ∧ c.s2s_align = true) :
    batch.target_text_lengths = List.replicate cuts.length (-1) := by
  obtain ⟨pcs, maxA, codec, asm, h1, h2, h3, h4, hb⟩ := getitem_ok_elim hok
  have hne : sort_by_duration cuts ≠ [] := by
    intro hnil
    rw [hnil] at h2
    simp [audioLens, pyMaxNat] at h2
  have hflag := hmode _ ((mem_sort_by_duration _ cuts).mp (getLastD_mem _ defaultCut hne))
  unfold assembleStage at h4
  rw [hflag.1, hflag.2] at h4
  simp only [Bool.false_eq_true, if_false, if_true] at h4
  unfold alignBranch at h4
  have hasm := (Except.ok.inj h4).symm
  have httl : asm.ttl_out =
      (convertStage cfg tp pcs).target_text_lengths.map (fun _ => (-1 : Int)) := by
    rw [hasm]
  have hbt : batch.target_text_lengths = asm.ttl_out := by rw [hb]; rfl
  rw [hbt, httl, List.map_const']
  rw [convertStage_ttl_length, processCuts_length h1, length_sort_by_duration]

/-- Claim C10, witness at a concrete single-cut s2s_align batch. -/
theorem c10_align_ttl_minus_one_witness :
    (getitem cfgEx tpEx "" [cutAlign] = Except.ok batchAlign ∧
      (∀ c ∈ [cutAlign], c.s2s = false ∧ c.s2s_align = true)) ∧
    batchAlign.target_text_lengths = List.replicate 1 (-1) :=
  ⟨⟨rfl, by decide⟩,
    c10_align_ttl_minus_one cfgEx tpEx "" [cutAlign] batchAlign rfl (by decide)⟩

theorem getD_take1_append {α : Type} (S : List α) (k : Nat) (d : α) :
    (S.take 1 ++ S).getD (k + 1) d = S.getD k d := by
  cases S with
  | nil => simp
  | cons y ys => simp [List.getD_cons_succ]

theorem getD_drop_one {α : Type} (l : List α) (k : Nat) (d : α) :
    (l.drop 1).getD k d = l.getD (k + 1) d := by
  cases l with
  | nil => simp
  | cons x xs => simp [List.getD_cons_succ]

theorem align_mask_row (cfg : Config) (tp : TextProcessing) (pcs : List PerCut)
    (codec : CodecOut) (conv : ConvOut) (b u : Nat) :
    ((alignLossMask cfg tp pcs codec conv).getD b []).getD u [] =
      if cfg.t5_style = false ∧
          conv.instruction_lengths.any (fun itl => decide (u < itl)) = true then
        ((((((alignTokens cfg tp pcs codec conv).getD b []).getD u []).drop 1).map
              (fun x => decide (x ≠ cfg.speech_pad_id))).take 1 ++
            ((((alignTokens cfg tp pcs codec conv).getD b []).getD u []).drop 1).map
              (fun x => decide (x ≠ cfg.speech_pad_id))).map (fun _ => false)
      else
        (((((alignTokens cfg tp pcs codec conv).getD b []).getD u []).drop 1).map
            (fun x => decide (x ≠ cfg.speech_pad_id))).take 1 ++
          ((((alignTokens cfg tp pcs codec conv).getD b []).getD u []).drop 1).map
            (fun x => decide (x ≠ cfg.speech_pad_id)) := by
  have hdup : ∀ (mm : Mask3),
      ((mm.map (fun ex => ex.map (fun row => row.take 1 ++ row))).getD b []).getD u [] =
        ((mm.getD b []).getD u []).take 1 ++ (mm.getD b []).getD u [] :=
    fun mm => row2_mapmap (fun row => row.take 1 ++ row) rfl mm b u
  have hsm : ((speechNotPadMask cfg (alignTokens cfg tp pcs codec conv)).getD b []).getD u [] =
      ((((alignTokens cfg tp pcs codec conv).getD b []).getD u []).drop 1).map
        (fun x => decide (x ≠ cfg.speech_pad_id)) :=
    row2_mapmap (fun row => (row.drop 1).map (fun x => decide (x ≠ cfg.speech_pad_id))) rfl _ b u
  unfold alignLossMask
  cases ht5 : cfg.t5_style with
  | true =>
    simp only [reduceIte]
    rw [hdup, hsm]
    simp only [Bool.true_eq_false, false_and, if_false]
  | false =>
    simp only [Bool.false_eq_true, if_false]
    rw [applyInstrMask_row, hdup, hsm]
    by_cases hany : conv.instruction_lengths.any (fun itl => decide (u < itl)) = true
    · simp only [hany, if_true, true_and]
    · have hany2 : conv.instruction_lengths.any (fun itl => decide (u < itl)) = false := by
        revert hany
        cases conv.instruction_lengths.any (fun itl => decide (u < itl)) <;> simp
      simp [hany2]

theorem align_asm_props (cfg : Config) (tp : TextProcessing) (pcs : List PerCut)
    (codec : CodecOut) (conv : ConvOut) {asm : AsmOut}
    (h : alignBranch cfg tp pcs codec conv = Except.ok asm) :
    (∀ b u k, ((asm.loss_mask.getD b []).getD u []).getD (k + 1) false = true →
        ((asm.tokens3.getD b []).getD u []).getD (k + 1) 0 ≠ cfg.speech_pad_id) ∧
    (cfg.t5_style = false → ∀ b u c,
        conv.instruction_lengths.any (fun itl => decide (u < itl)) = true →
        ((asm.loss_mask.getD b []).getD u []).getD c false = false) := by
  have hasm : asm =
      { tokens3 := alignTokens cfg tp pcs codec conv,
        loss_mask := alignLossMask cfg tp pcs codec conv,
        full_lengths := (((codec.features_lens.map (fun f => f + 1) : List Nat)).zip
            conv.instruction_lengths).map (fun p => (p.1 : Int) + 1 + (p.2 : Int)),
        ttl_out := conv.target_text_lengths.map (fun _ => (-1 : Int)) } :=
    (Except.ok.inj h).symm
  have hlm : asm.loss_mask = alignLossMask cfg tp pcs codec conv := by rw [hasm]
  have htk : asm.tokens3 = alignTokens cfg tp pcs codec conv := by rw [hasm]
  constructor
  · intro b u k hm
    rw [hlm, align_mask_row] at hm
    by_cases hcond : cfg.t5_style = false ∧
        conv.instruction_lengths.any (fun itl => decide (u < itl)) = true
    · rw [if_pos hcond, getD_map_false] at hm
      exact absurd hm (by simp)
    · rw [if_neg hcond, getD_take1_append] at hm
      have hres := getD_mapPred_eq_true (fun x => decide (x ≠ cfg.speech_pad_id)) _ k 0 hm
      rw [htk]
      have hd := getD_drop_one (((alignTokens cfg tp pcs codec conv).getD b []).getD u []) k
        (0 : Int)
      rw [← hd]
      exact of_decide_eq_true hres.2
  · intro ht5 b u c hany
    rw [hlm, align_mask_row, if_pos ⟨ht5, hany⟩, getD_map_false]

theorem s2s_asm_props (cfg : Config) (tp : TextProcessing) (codec : CodecOut) (conv : ConvOut)
    {asm : AsmOut} (h : s2sBranch cfg tp codec conv = Except.ok asm) :
    (∀ b u, ((asm.loss_mask.getD b []).getD u []).getD 0 false = true →
        ((asm.tokens3.getD b []).getD u []).getD 0 0 ≠ tp.pad_id) ∧
    (∀ b u k, ((asm.loss_mask.getD b []).getD u []).getD (k + 1) false = true →
        ((asm.tokens3.getD b []).getD u []).getD (k + 1) 0 ≠ cfg.speech_pad_id) ∧
    (cfg.t5_style = false → ∀ b u c,
        conv.instruction_lengths.any (fun itl => decide (u < itl)) = true →
        ((asm.loss_mask.getD b []).getD u []).getD c false = false) := by
  unfold s2sBranch at h
  cases hcat : torch_cat_dim2 (s2sTextMask cfg tp codec conv) (s2sSpeechMask cfg tp codec conv)
      with
  | error e => rw [hcat, except_bind_error] at h; exact absurd h (by simp)
  | ok lm =>
    rw [hcat, except_bind_ok] at h
    have hasm : asm =
        { tokens3 := s2sTokens cfg tp codec conv, loss_mask := lm,
          full_lengths := ((conv.target_text_lengths.zip codec.features_lens).zip
              conv.instruction_lengths).map
            (fun p => (p.1.1 : Int) + 1 + (p.1.2 : Int) + 1 + (p.2 : Int)),
          ttl_out := conv.target_text_lengths.map (fun n => (n : Int)) } :=
      (Except.ok.inj h).symm
    have hlm : asm.loss_mask = lm := by rw [hasm]
    have htk : asm.tokens3 = s2sTokens cfg tp codec conv := by rw [hasm]
    refine ⟨?_, ?_, ?_⟩
    · intro b u hm
      rw [hlm, s2s_mask_row cfg tp codec conv hcat b u] at hm
      by_cases hcond : cfg.t5_style = false ∧
          conv.instruction_lengths.any (fun itl => decide (u < itl)) = true
      · rw [if_pos hcond, getD_map_false] at hm
        exact absurd hm (by simp)
      · rw [if_neg hcond] at hm
        rw [htk]
        cases hrow : ((s2sTokens cfg tp codec conv).getD b []).getD u [] with
        | nil => rw [hrow] at hm; simp at hm
        | cons x xs =>
          rw [hrow] at hm
          simp only [List.take_succ_cons, List.take_zero, List.drop_succ_cons,
            List.drop_zero, List.map_cons, List.map_nil, List.nil_append,
            List.cons_append, List.getD_cons_zero] at hm
          simp only [List.getD_cons_zero]
          exact of_decide_eq_true hm
    · intro b u k hm
      rw [hlm, s2s_mask_row cfg tp codec conv hcat b u] at hm
      by_cases hcond : cfg.t5_style = false ∧
          conv.instruction_lengths.any (fun itl => decide (u < itl)) = true
      · rw [if_pos hcond, getD_map_false] at hm
        exact absurd hm (by simp)
      · rw [if_neg hcond] at hm
        rw [htk]
        cases hrow : ((s2sTokens cfg tp codec conv).getD b []).getD u [] with
        | nil => rw [hrow] at hm; simp at hm
        | cons x xs =>
          rw [hrow] at hm
          simp only [List.take_succ_cons, List.take_zero, List.drop_succ_cons,
            List.drop_zero, List.map_cons, List.map_nil, List.nil_append,
            List.cons_append, List.getD_cons_succ] at hm
          have hres := getD_mapPred_eq_true (fun x => decide (x ≠ cfg.speech_pad_id)) xs k 0 hm
          simp only [List.getD_cons_succ]
          exact of_decide_eq_true hres.2
    · intro ht5 b u c hany
      rw [hlm, s2s_mask_row cfg tp codec conv hcat b u, if_pos ⟨ht5, hany⟩, getD_map_false]

theorem codec_ok_not_direct {cfg : Config} {tp : TextProcessing} {cutsS : List Cut}
    {codec : CodecOut} (h : targetCodecStage cfg tp cutsS = Except.ok codec) :
    (cutsS.getLastD defaultCut).direct_s2s = false := by
  unfold targetCodecStage at h
  by_cases hload : cfg.load_answer_audio = true
  · rw [hload] at h
    simp only [not_true, reduceIte] at h
    by_cases hdir : (cutsS.getLastD defaultCut).direct_s2s = true
    · rw [hdir] at h
      simp only [if_true] at h
      exact absurd h (by simp)
    · revert hdir
      cases (cutsS.getLastD defaultCut).direct_s2s <;> simp
  · have hload2 : cfg.load_answer_audio = false := by
      revert hload
      cases cfg.load_answer_audio <;> simp
    rw [hload2] at h
    simp only [Bool.false_eq_true, not_false_iff, if_true] at h
    exact absurd h (by simp)

theorem mapmap_getD_length {α β : Type} (f : List α → List β)
    (m : List (List (List α))) (b : Nat) :
    ((m.map (fun ex => ex.map f)).getD b []).length = (m.getD b []).length := by
  cases hb : m[b]? with
  | none => simp [List.getD_eq_getElem?_getD, List.getElem?_map, hb]
  | some ex => simp [List.getD_eq_getElem?_getD, List.getElem?_map, hb]

theorem zeroFirstRows_getD_length (itl : Nat) (m : Mask3) (b : Nat) :
    ((zeroFirstRows itl m).getD b []).length = (m.getD b []).length := by
  unfold zeroFirstRows
  cases hb : m[b]? with
  | none => simp [List.getD_eq_getElem?_getD, List.getElem?_map, hb]
  | some ex =>
    simp only [List.getD_eq_getElem?_getD, List.getElem?_map, hb, Option.map_some',
      Option.getD_some, List.length_append, List.length_map, List.length_take,
      List.length_drop]
    omega

theorem applyInstrMask_getD_length (itls : List Nat) (m : Mask3) (b : Nat) :
    ((applyInstrMask itls m).getD b []).length = (m.getD b []).length := by
  induction itls generalizing m with
  | nil => rfl
  | cons i rest ih =>
    have hstep : applyInstrMask (i :: rest) m = applyInstrMask rest (zeroFirstRows i m) := rfl
    rw [hstep, ih (zeroFirstRows i m), zeroFirstRows_getD_length]

theorem zeroFirstRows_length (itl : Nat) (m : Mask3) :
    (zeroFirstRows itl m).length = m.length := by
  unfold zeroFirstRows
  exact List.length_map _ _

theorem applyInstrMask_length (itls : List Nat) (m : Mask3) :
    (applyInstrMask itls m).length = m.length := by
  induction itls generalizing m with
  | nil => rfl
  | cons i rest ih =>
    have hstep : applyInstrMask (i :: rest) m = applyInstrMask rest (zeroFirstRows i m) := rfl
    rw [hstep, ih (zeroFirstRows i m), zeroFirstRows_length]

theorem headI_getD {α : Type} [Inhabited α] (l : List α) (h : l ≠ []) (d : α) :
    l.headI = l.getD 0 d := by
  cases l with
  | nil => exact absurd rfl h
  | cons x xs => rfl

theorem getD_replicate_zero {α : Type} (n : Nat) (a d : α) (h : 0 < n) :
    (List.replicate n a).getD 0 d = a := by
  cases n with
  | zero => omega
  | succ k => rfl

theorem take_succ_ne_nil {α : Type} {l : List α} (h : l ≠ []) (n : Nat) :
    l.take (n + 1) ≠ [] := by
  cases l with
  | nil => exact absurd rfl h
  | cons x xs => simp

theorem convertStage_tte_length (cfg : Config) (tp : TextProcessing) (pcs : List PerCut) :
    (convertStage cfg tp pcs).target_texts_expanded.length = pcs.length := by
  simp [convertStage, convert_text_to_3d_tensor]

theorem convertStage_ie_length (cfg : Config) (tp : TextProcessing) (pcs : List PerCut) :
    (convertStage cfg tp pcs).instructions_expanded_no_eos.length = pcs.length := by
  simp [convertStage, convert_text_to_3d_tensor]

theorem convertStage_il_length (cfg : Config) (tp : TextProcessing) (pcs : List PerCut) :
    (convertStage cfg tp pcs).instruction_lengths.length = pcs.length := by
  simp [convertStage, convert_text_to_3d_tensor, collate_and_pad_1d]

theorem convertStage_tte_rows_ne_nil (cfg : Config) (tp : TextProcessing)
    (pcs : List PerCut) :
    ∀ x ∈ (convertStage cfg tp pcs).target_texts_expanded, x ≠ [] := by
  intro x hx
  simp only [convertStage, convert_text_to_3d_tensor, reduceIte] at hx
  obtain ⟨s, hs, hxeq⟩ := List.mem_map.mp hx
  rw [← hxeq]
  simp

theorem collate3d_getD (cfg : Config) (pid : Int) (inputs : Mat3) (b : Nat)
    (hb : b < inputs.length) :
    ((collate_and_pad_3d cfg pid inputs).1).getD b [] =
      inputs.getD b [] ++ List.replicate (listMaxNat (inputs.map List.length) -
          (inputs.getD b []).length)
        (pid :: List.replicate (speechChannels cfg) cfg.speech_pad_id) := by
  unfold collate_and_pad_3d
  exact getD_map_of_lt _ inputs b [] [] hb

theorem collate3d_length (cfg : Config) (pid : Int) (inputs : Mat3) :
    ((collate_and_pad_3d cfg pid inputs).1).length = inputs.length := by
  unfold collate_and_pad_3d
  exact List.length_map _ _

theorem s2t_token_list_length (cfg : Config) (tp : TextProcessing) (pcs : List PerCut) :
    (s2tTokenList cfg tp (convertStage cfg tp pcs)).length = pcs.length := by
  unfold s2tTokenList
  cases cfg.t5_style <;>
    simp [List.length_zip, convertStage_tte_length, convertStage_ie_length,
      convertStage_il_length, convertStage_ttl_length]

theorem s2t_token_list_rows_ne_nil (cfg : Config) (tp : TextProcessing) (pcs : List PerCut) :
    ∀ x ∈ s2tTokenList cfg tp (convertStage cfg tp pcs), x ≠ [] := by
  have hbase : ∀ x ∈ ((convertStage cfg tp pcs).target_texts_expanded.zip
      (convertStage cfg tp pcs).target_text_lengths).map (fun p => p.1.take (p.2 + 1)),
      x ≠ [] := by
    intro x hx
    obtain ⟨⟨a, n⟩, hp, hxeq⟩ := List.mem_map.mp hx
    have h1 : a ∈ (convertStage cfg tp pcs).target_texts_expanded := (List.of_mem_zip hp).1
    have hane : a ≠ [] := convertStage_tte_rows_ne_nil cfg tp pcs a h1
    rw [← hxeq]
    exact take_succ_ne_nil hane n
  unfold s2tTokenList
  cases ht5 : cfg.t5_style with
  | true =>
    simp only [reduceIte]
    exact hbase
  | false =>
    simp only [Bool.false_eq_true, if_false]
    intro x hx
    obtain ⟨⟨bb, q⟩, hp, hxeq⟩ := List.mem_map.mp hx
    have hb : bb ∈ ((convertStage cfg tp pcs).target_texts_expanded.zip
        (convertStage cfg tp pcs).target_text_lengths).map (fun p => p.1.take (p.2 + 1)) :=
      (List.of_mem_zip hp).1
    rw [← hxeq]
    intro hnil
    rw [List.append_eq_nil] at hnil
    exact hbase bb hb hnil.2

theorem s2t_no_batch (cfg : Config) (tp : TextProcessing) (pcs : List PerCut)
    (codec : CodecOut) (hne : pcs ≠ []) (asm : AsmOut)
    (h : s2tBranch cfg tp pcs codec (convertStage cfg tp pcs) = Except.ok asm) : False := by
  have hTLlen : (s2tTokenList cfg tp (convertStage cfg tp pcs)).length = pcs.length :=
    s2t_token_list_length cfg tp pcs
  have hTLpos : 0 < (s2tTokenList cfg tp (convertStage cfg tp pcs)).length := by
    rw [hTLlen]
    cases pcs with
    | nil => exact absurd rfl hne
    | cons a l => simp
  have hmem0 : (s2tTokenList cfg tp (convertStage cfg tp pcs)).getD 0 [] ∈
      s2tTokenList cfg tp (convertStage cfg tp pcs) := getD_mem_of_lt _ 0 [] hTLpos
  have hne0 : (s2tTokenList cfg tp (convertStage cfg tp pcs)).getD 0 [] ≠ [] :=
    s2t_token_list_rows_ne_nil cfg tp pcs _ hmem0
  have hrow0le : ((s2tTokenList cfg tp (convertStage cfg tp pcs)).getD 0 []).length ≤
      listMaxNat ((s2tTokenList cfg tp (convertStage cfg tp pcs)).map List.length) :=
    le_listMaxNat (List.mem_map_of_mem _ hmem0)
  have hTm : 1 ≤
      listMaxNat ((s2tTokenList cfg tp (convertStage cfg tp pcs)).map List.length) := by
    have hpos : 0 < ((s2tTokenList cfg tp (convertStage cfg tp pcs)).getD 0 []).length :=
      List.length_pos.mpr hne0
    omega
  have htoklen : (s2tTokens cfg tp (convertStage cfg tp pcs)).length =
      (s2tTokenList cfg tp (convertStage cfg tp pcs)).length :=
    collate3d_length cfg tp.pad_id _
  have htokpos : 0 < (s2tTokens cfg tp (convertStage cfg tp pcs)).length := by
    rw [htoklen]
    exact hTLpos
  have htokne : s2tTokens cfg tp (convertStage cfg tp pcs) ≠ [] := by
    intro hnil
    rw [hnil] at htokpos
    simp at htokpos
  have hrow0len : ((s2tTokens cfg tp (convertStage cfg tp pcs)).getD 0 []).length =
      listMaxNat ((s2tTokenList cfg tp (convertStage cfg tp pcs)).map List.length) := by
    have hg : s2tTokens cfg tp (convertStage cfg tp pcs) =
        (collate_and_pad_3d cfg tp.pad_id (s2tTokenList cfg tp (convertStage cfg tp pcs))).1 :=
      rfl
    rw [hg, collate3d_getD cfg tp.pad_id _ 0 hTLpos, List.length_append,
      List.length_replicate]
    omega
  have hdim1 : dim1 (s2tTokens cfg tp (convertStage cfg tp pcs)) =
      listMaxNat ((s2tTokenList cfg tp (convertStage cfg tp pcs)).map List.length) := by
    unfold dim1
    rw [headI_getD _ htokne []]
    exact hrow0len
  have htnp_row : ((textNotPadMask tp.pad_id
      (s2tTokens cfg tp (convertStage cfg tp pcs))).getD 0 []).length =
      listMaxNat ((s2tTokenList cfg tp (convertStage cfg tp pcs)).map List.length) := by
    unfold textNotPadMask
    rw [mapmap_getD_length]
    exact hrow0len
  have htnp_len : (textNotPadMask tp.pad_id
      (s2tTokens cfg tp (convertStage cfg tp pcs))).length =
      (s2tTokens cfg tp (convertStage cfg tp pcs)).length := by
    unfold textNotPadMask
    exact List.length_map _ _
  have hTMrow : ((s2tTextMask cfg tp (convertStage cfg tp pcs)).getD 0 []).length =
      listMaxNat ((s2tTokenList cfg tp (convertStage cfg tp pcs)).map List.length) := by
    unfold s2tTextMask
    cases ht5 : cfg.t5_style with
    | true =>
      simp only [reduceIte]
      exact htnp_row
    | false =>
      simp only [Bool.false_eq_true, if_false]
      rw [applyInstrMask_getD_length]
      exact htnp_row
  have hTMpos : 0 < (s2tTextMask cfg tp (convertStage cfg tp pcs)).length := by
    unfold s2tTextMask
    cases ht5 : cfg.t5_style with
    | true =>
      simp only [reduceIte]
      rw [htnp_len]
      exact htokpos
    | false =>
      simp only [Bool.false_eq_true, if_false]
      rw [applyInstrMask_length, htnp_len]
      exact htokpos
  have hzm_row : ((s2tZeroMask cfg tp (convertStage cfg tp pcs)).getD 0 []).length =
      listMaxNat ((s2tTokenList cfg tp (convertStage cfg tp pcs)).map List.length) - 1 := by
    unfold s2tZeroMask
    rw [getD_replicate_zero _ _ _ htokpos, List.length_replicate, hdim1]
  have hzm_len : (s2tZeroMask cfg tp (convertStage cfg tp pcs)).length =
      (s2tTokens cfg tp (convertStage cfg tp pcs)).length := by
    unfold s2tZeroMask
    exact List.length_replicate _ _
  have hSMrow : ((s2tSpeechMask cfg tp (convertStage cfg tp pcs)).getD 0 []).length =
      listMaxNat ((s2tTokenList cfg tp (convertStage cfg tp pcs)).map List.length) - 1 := by
    unfold s2tSpeechMask
    cases ht5 : cfg.t5_style with
    | true =>
      simp only [reduceIte]
      exact hzm_row
    | false =>
      simp only [Bool.false_eq_true, if_false]
      rw [applyInstrMask_getD_length]
      exact hzm_row
  have hSMpos : 0 < (s2tSpeechMask cfg tp (convertStage cfg tp pcs)).length := by
    unfold s2tSpeechMask
    cases ht5 : cfg.t5_style with
    | true =>
      simp only [reduceIte]
      rw [hzm_len]
      exact htokpos
    | false =>
      simp only [Bool.false_eq_true, if_false]
      rw [applyInstrMask_length, hzm_len]
      exact htokpos
  unfold s2tBranch at h
  cases hcat : torch_cat_dim2 (s2tTextMask cfg tp (convertStage cfg tp pcs))
      (s2tSpeechMask cfg tp (convertStage cfg tp pcs)) with
  | error e =>
    rw [hcat, except_bind_error] at h
    exact absurd h (by simp)
  | ok lm =>
    unfold torch_cat_dim2 at hcat
    by_cases hg : (s2tTextMask cfg tp (convertStage cfg tp pcs)).length =
        (s2tSpeechMask cfg tp (convertStage cfg tp pcs)).length ∧
        (s2tTextMask cfg tp (convertStage cfg tp pcs)).map List.length =
          (s2tSpeechMask cfg tp (convertStage cfg tp pcs)).map List.length
    · have hcong : ((s2tTextMask cfg tp (convertStage cfg tp pcs)).map List.length).getD 0 0 =
          ((s2tSpeechMask cfg tp (convertStage cfg tp pcs)).map List.length).getD 0 0 :=
        congrArg (fun l => l.getD 0 0) hg.2
      rw [getD_map_of_lt List.length _ 0 [] 0 hTMpos,
        getD_map_of_lt List.length _ 0 [] 0 hSMpos, hTMrow, hSMrow] at hcong
      omega
    · rw [if_neg hg] at hcat
      exact absurd hcat (by simp)

/-- Claim C2 (amended): in every assembled batch the returned loss mask is
false at every label position whose speech column holds the speech pad id,
and, when the t5-style flag is off, false over the entire instruction-context
prefix of every example (the context_lengths field holds the per-example
instruction lengths); the text-column clause — mask false wherever the text
column equals the text pad id — holds for batches assembled in s2s mode,
but not in s2s_align mode, where line 449 duplicates the speech mask into
the text column instead of comparing against the text pad id. -/
theorem c2_loss_mask (cfg : Config) (tp : TextProcessing) (dc : String) (cuts : List Cut)
    (batch : Batch) (hok : getitem cfg tp dc cuts = Except.ok batch) :
    (∀ b t k, mentry batch.loss_mask b t (k + 1) = true →
        entry3 batch.labels b t (k + 1) ≠ cfg.speech_pad_id) ∧
    (cfg.t5_style = false → ∀ b t c, t + 1 < batch.context_lengths.getD b 0 →
        mentry batch.loss_mask b t c = false) ∧
    ((∀ c ∈ cuts, c.s2s = true) → ∀ b t, mentry batch.loss_mask b t 0 = true →
        entry3 batch.labels b t 0 ≠ tp.pad_id) := by
  obtain ⟨pcs, maxA, codec, asm, h1, h2, h3, h4, hb⟩ := getitem_ok_elim hok
  have hne : sort_by_duration cuts ≠ [] := by
    intro hnil
    rw [hnil] at h2
    simp [audioLens, pyMaxNat] at h2
  have hbl : batch.loss_mask = shift_mask asm.loss_mask := by rw [hb]; rfl
  have hbe : batch.labels = labels_of asm.tokens3 := by rw [hb]; rfl
  have hctx : batch.context_lengths = (convertStage cfg tp pcs).instruction_lengths := by
    rw [hb]; rfl
  have hany_of : ∀ b t, t + 1 < batch.context_lengths.getD b 0 →
      (convertStage cfg tp pcs).instruction_lengths.any
        (fun itl => decide (t + 1 < itl)) = true := by
    intro b t hpref
    rw [hctx] at hpref
    have hblt : b < (convertStage cfg tp pcs).instruction_lengths.length := by
      by_contra hge
      rw [List.getD_eq_getElem?_getD, List.getElem?_eq_none (by omega)] at hpref
      simp at hpref
    rw [List.any_eq_true]
    exact ⟨(convertStage cfg tp pcs).instruction_lengths.getD b 0,
      getD_mem_of_lt _ b 0 hblt, by simpa using hpref⟩
  unfold assembleStage at h4
  by_cases hs2s : ((sort_by_duration cuts).getLastD defaultCut).s2s = true
  · rw [hs2s] at h4
    simp only [if_true] at h4
    obtain ⟨htxt, hsp, hpre⟩ := s2s_asm_props cfg tp codec (convertStage cfg tp pcs) h4
    refine ⟨?_, ?_, ?_⟩
    · intro b t k hm
      rw [hbl] at hm
      unfold mentry shift_mask at hm
      rw [row2_map_drop] at hm
      have hres := hsp b (t + 1) k hm
      rw [hbe]
      unfold entry3 labels_of
      rw [row2_map_drop]
      exact hres
    · intro ht5 b t c hpref
      rw [hbl]
      unfold mentry shift_mask
      rw [row2_map_drop]
      exact hpre ht5 b (t + 1) c (hany_of b t hpref)
    · intro _ b t hm
      rw [hbl] at hm
      unfold mentry shift_mask at hm
      rw [row2_map_drop] at hm
      have hres := htxt b (t + 1) hm
      rw [hbe]
      unfold entry3 labels_of
      rw [row2_map_drop]
      exact hres
  · have hs2s' : ((sort_by_duration cuts).getLastD defaultCut).s2s = false := by
      revert hs2s
      cases ((sort_by_duration cuts).getLastD defaultCut).s2s <;> simp
    rw [hs2s'] at h4
    simp only [Bool.false_eq_true, if_false] at h4
    by_cases hal : ((sort_by_duration cuts).getLastD defaultCut).s2s_align = true
    · rw [hal] at h4
      simp only [if_true] at h4
      obtain ⟨hsp, hpre⟩ := align_asm_props cfg tp pcs codec (convertStage cfg tp pcs) h4
      refine ⟨?_, ?_, ?_⟩
      · intro b t k hm
        rw [hbl] at hm
        unfold mentry shift_mask at hm
        rw [row2_map_drop] at hm
        have hres := hsp b (t + 1) k hm
        rw [hbe]
        unfold entry3 labels_of
        rw [row2_map_drop]
        exact hres
      · intro ht5 b t c hpref
        rw [hbl]
        unfold mentry shift_mask
        rw [row2_map_drop]
        exact hpre ht5 b (t + 1) c (hany_of b t hpref)
      · intro hmode
        exfalso
        have hlast : ((sort_by_duration cuts).getLastD defaultCut).s2s = true :=
          hmode _ ((mem_sort_by_duration _ cuts).mp (getLastD_mem _ defaultCut hne))
        rw [hlast] at hs2s'
        exact absurd hs2s' (by simp)
    · have hal' : ((sort_by_duration cuts).getLastD defaultCut).s2s_align = false := by
        revert hal
        cases ((sort_by_duration cuts).getLastD defaultCut).s2s_align <;> simp
      rw [hal'] at h4
      simp only [Bool.false_eq_true, if_false] at h4
      have hdir : ((sort_by_duration cuts).getLastD defaultCut).direct_s2s = false :=
        codec_ok_not_direct h3
      rw [hdir] at h4
      simp only [Bool.false_eq_true, if_false] at h4
      by_cases hs2t : ((sort_by_duration cuts).getLastD defaultCut).s2t = true
      · rw [hs2t] at h4
        simp only [if_true] at h4
        exfalso
        have hpne : pcs ≠ [] := by
          intro hnil
          have hlen := processCuts_length h1
          rw [hnil] at hlen
          have hslen : 0 < (sort_by_duration cuts).length := by
            cases hs : sort_by_duration cuts with
            | nil => exact absurd hs hne
            | cons a l => simp [hs]
          rw [← hlen] at hslen
          simp at hslen
        exact s2t_no_batch cfg tp pcs codec hpne asm h4
      · have hs2t' : ((sort_by_duration cuts).getLastD defaultCut).s2t = false := by
          revert hs2t
          cases ((sort_by_duration cuts).getLastD defaultCut).s2t <;> simp
        rw [hs2t'] at h4
        simp only [Bool.false_eq_true, if_false] at h4
        exact absurd h4 (by simp)

/-- Claim C2 (amended), witness at a concrete single-cut s2s_align batch:
position (0, 0, 0) of the returned loss mask lies inside the
instruction-context prefix (length 2) and is false. -/
theorem c2_loss_mask_witness :
    (getitem cfgEx tpEx "" [cutAlign] = Except.ok batchAlign ∧ cfgEx.t5_style = false ∧
      (0 : Nat) + 1 < batchAlign.context_lengths.getD 0 0) ∧
    mentry batchAlign.loss_mask 0 0 0 = false :=
  ⟨⟨rfl, rfl, by decide⟩,
    (c2_loss_mask cfgEx tpEx "" [cutAlign] batchAlign rfl).2.1 rfl 0 0 0 (by decide)⟩

/-- Claim C2, counterexample: an s2s_align batch that assembles successfully,
built with a text processor whose tokenization of the single word emits the
text pad id. Label position (0, 2, 0) then holds the text pad id while its
speech column holds 1000, a dummy-codec fill value distinct from the speech
pad, bos and eos sentinels — so the position is neither padding nor the
end-marker row — yet the loss mask is true there, because the align branch
(line 449) duplicates the speech mask into the text column instead of
comparing the text column with the text pad id. -/
theorem c2_counterexample :
    getitem cfgEx tpBad "" [cutAlignBad] = Except.ok batchAlignBad ∧
    entry3 batchAlignBad.labels 0 2 0 = tpBad.pad_id ∧
    entry3 batchAlignBad.labels 0 2 1 = 1000 ∧
    (1000 : Int) ≠ cfgEx.speech_pad_id ∧ (1000 : Int) ≠ cfgEx.speech_bos_id ∧
    (1000 : Int) ≠ cfgEx.speech_eos_id ∧
    mentry batchAlignBad.loss_mask 0 2 0 = true :=
  ⟨rfl, by decide, by decide, by decide, by decide, by decide, by decide⟩
